import Mathlib

/-!
# Verification of the space-builder repository

A shallow embedding of the space-builder code (TypeScript/React, `src/`):
the `SpaceBuilderService` localStorage persistence layer
(`src/lib/services/space-builder-service.ts`), the canvas UI operations of
the `SpaceBuilderContent` components (`src/app/page.tsx` and
`src/app/space-builder/components/space-builder.tsx`), the mock data
(`src/lib/data/mock/canvas-state.ts`), and the debounced auto-save effects.

Modelling conventions:
* JavaScript values that flow through `JSON.stringify` / `JSON.parse` are
  modelled by the inductive type `Json` (numbers as integers: every numeric
  literal in this repository is an integer, and IEEE float behaviour is
  never exercised by the properties below).
* A localStorage cell holds a `Stored` blob: either `Stored.jval j`, the
  string produced by `JSON.stringify` on the value `j` (for which
  `JSON.parse` recovers `j`), or `Stored.raw s`, an arbitrary string that
  does not parse as JSON.  This models the serialize/parse pair exactly on
  round-trippable data while keeping the unparseable-blob failure paths of
  the code observable.
* `localStorage` itself is an association list from key strings to blobs.
* Wall-clock reads (`Date.now()`, `new Date().toISOString()`) are explicit
  parameters of the embedded functions.
* `typeof window !== 'undefined'` is always true: the model is the browser
  execution of the code.  The commented-out `fetch` calls in the service
  are dead code and have no counterpart in the model, so no operation below
  has any effect other than on the store it returns.
-/

/-- JavaScript values as produced by `JSON.parse` / consumed by
`JSON.stringify`.  Numbers are modelled as integers (see module header). -/
inductive Json where
  | null : Json
  | bool (b : Bool) : Json
  | num (n : Int) : Json
  | str (s : String) : Json
  | arr (elems : List Json) : Json
  | obj (fields : List (String × Json)) : Json
deriving Repr

namespace Json

/-- Structural (strict) equality test on JSON values. -/
def beq : Json → Json → Bool
  | .null, .null => true
  | .bool a, .bool b => a == b
  | .num a, .num b => a == b
  | .str a, .str b => a == b
  | .arr a, .arr b => beqList a b
  | .obj a, .obj b => beqObj a b
  | _, _ => false
where
  /-- Element-wise equality of JSON arrays. -/
  beqList : List Json → List Json → Bool
    | [], [] => true
    | x :: xs, y :: ys => beq x y && beqList xs ys
    | _, _ => false
  /-- Field-wise equality of JSON objects (field order significant). -/
  beqObj : List (String × Json) → List (String × Json) → Bool
    | [], [] => true
    | (k1, v1) :: xs, (k2, v2) :: ys => k1 == k2 && beq v1 v2 && beqObj xs ys
    | _, _ => false

instance : BEq Json := ⟨beq⟩

/-- Property access `v.key` on a JSON value: `some` field value when `v` is
an object with that key, otherwise JavaScript `undefined`, modelled as
`none` (property access on non-objects yields `undefined`, not a throw). -/
def jget (v : Json) (key : String) : Option Json :=
  match v with
  | .obj fields => (fields.find? (fun f => f.1 == key)).map (·.2)
  | _ => none

/-- JavaScript truthiness of a JSON value: `null`, `false`, `0` and the
empty string are falsy; every other value (all arrays and objects) is
truthy. -/
def truthy : Json → Bool
  | .null => false
  | .bool b => b
  | .num n => n != 0
  | .str s => s != ""
  | .arr _ => true
  | .obj _ => true

/-- JavaScript truthiness of a possibly-`undefined` value; `undefined`
(`none`) is falsy. -/
def truthyOpt : Option Json → Bool
  | none => false
  | some v => truthy v

end Json

/-- A string blob held in a localStorage cell.  `jval j` is the string
`JSON.stringify` produces for the value `j`; `raw s` is any other string,
one on which `JSON.parse` throws. -/
inductive Stored where
  | jval (j : Json) : Stored
  | raw (s : String) : Stored
deriving Repr

/-- `JSON.stringify` of a JavaScript value: yields the blob that parses
back to that value. -/
def JSONstringify (j : Json) : Stored := .jval j

/-- `JSON.parse` of a blob: `none` models the `SyntaxError` throw. -/
def JSONparse : Stored → Option Json
  | .jval j => some j
  | .raw _ => none

/-- The browser localStorage: an association of key strings to blobs. -/
abbrev Store := List (String × Stored)

namespace Store

/-- The empty localStorage. -/
def empty : Store := []

/-- `localStorage.getItem(key)`: the stored blob, or `none` for the
JavaScript `null` returned on a missing key. -/
def getItem (s : Store) (key : String) : Option Stored :=
  (s.find? (fun kv => kv.1 == key)).map (·.2)

/-- `localStorage.setItem(key, value)`: replaces the binding for `key`,
or appends one. -/
def setItem (s : Store) (key : String) (v : Stored) : Store :=
  match s with
  | [] => [(key, v)]
  | kv :: rest =>
    if kv.1 == key then (key, v) :: rest
    else kv :: setItem rest key v

/-- `localStorage.removeItem(key)`: drops any binding for `key`. -/
def removeItem (s : Store) (key : String) : Store :=
  s.filter (fun kv => !(kv.1 == key))

end Store

/-- Builds a JSON object from fields whose values may be JavaScript
`undefined` (`none`); such fields are dropped, as `JSON.stringify` drops
object entries whose value is `undefined`. -/
def mkObj (fields : List (String × Option Json)) : Json :=
  .obj (fields.filterMap (fun f => f.2.map (fun v => (f.1, v))))

/-- An (x, y) canvas position (`src/lib/types/space-builder.ts`; reactflow
`XYPosition`).  Coordinates are modelled as integers. -/
structure Position where
  x : Int
  y : Int
deriving Repr, DecidableEq

/-- The `"asset" | "group"` node-kind union used by the builder components. -/
inductive NodeKind where
  | asset : NodeKind
  | group : NodeKind
deriving Repr, DecidableEq

/-- The string the node kind takes in node objects. -/
def NodeKind.toStr : NodeKind → String
  | .asset => "asset"
  | .group => "group"

/-- `NodeData` (`src/lib/types/space-builder.ts`): per-node payload.
`groupId` is `string | null` and always present (`none` models `null`);
the other optional fields model `undefined`/absent keys as `none`.
Entries of the optional `functions` array (`FunctionConfig` from
`add-function-modal.tsx`) are carried as opaque JSON values: no claim
inspects them. -/
structure NodeData where
  label : String
  typeId : Option String := none
  groupId : Option String := none
  type : Option String := none
  parentId : Option String := none
  functions : Option (List Json) := none
deriving Repr

/-- A reactflow node as this repository constructs them (mock data,
`addNode`, `updateNode`, `handleGroupChange`): the fields of reactflow's
`Node<NodeData>` that the code reads or writes.  `style` is an open
key-value object. -/
structure FlowNode where
  id : String
  type : Option String := none
  position : Position
  draggable : Option Bool := none
  selectable : Option Bool := none
  deletable : Option Bool := none
  style : Option (List (String × Json)) := none
  parentNode : Option String := none
  extent : Option String := none
  data : NodeData
deriving Repr

/-- A reactflow edge as this repository constructs them: the mock edges
carry `id`, `source`, `target`; edges created by `addEdge` in `onConnect`
additionally carry the connection's handle ids. -/
structure FlowEdge where
  id : String
  source : String
  target : String
  sourceHandle : Option String := none
  targetHandle : Option String := none
deriving Repr, DecidableEq

/-- `CanvasState` (`src/lib/types/space-builder.ts`): all nodes and edges
of a space. -/
structure CanvasState where
  nodes : List FlowNode
  edges : List FlowEdge
deriving Repr

/-- `ProjectMetadata` (`src/lib/types/space-builder.ts`). -/
structure ProjectMetadata where
  id : String
  name : String
  description : String
  createdAt : String
  lastModified : String
deriving Repr, DecidableEq

/-- `Partial<ProjectMetadata>` as the components actually pass it to
`saveCanvasState`: an optional name and description. -/
structure PartialMeta where
  name : Option String := none
  description : Option String := none
deriving Repr, DecidableEq

/-- `AssetType` (`src/lib/types/space-builder.ts`). -/
structure AssetType where
  id : String
  name : String
  icon : String
  description : String
  category : String
  isActive : Bool
deriving Repr, DecidableEq

/-- `Omit<AssetType, 'id'>`: the argument of `createAssetType`. -/
structure AssetTypeNoId where
  name : String
  icon : String
  description : String
  category : String
  isActive : Bool
deriving Repr, DecidableEq

/-- `ServiceConfig` (`src/lib/services/space-builder-service.ts`). -/
structure ServiceConfig where
  baseUrl : Option String := none
  apiKey : Option String := none
deriving Repr, DecidableEq

/-! ## JSON encodings

`JSON.stringify` applied to the typed values above.  Keys absent on the
JavaScript object (`undefined` optionals) are dropped, matching
`JSON.stringify`; a present `null` (`NodeData.groupId`) is kept.  Key
order is normalised to declaration order. -/

/-- JSON encoding of a position. -/
def encodePos (p : Position) : Json :=
  .obj [("x", .num p.x), ("y", .num p.y)]

/-- JSON encoding of node data.  `groupId` is always present (possibly
`null`); the optional fields are dropped when absent. -/
def encodeNodeData (d : NodeData) : Json :=
  mkObj [
    ("label", some (.str d.label)),
    ("typeId", d.typeId.map .str),
    ("groupId", some (match d.groupId with | some g => .str g | none => .null)),
    ("type", d.type.map .str),
    ("parentId", d.parentId.map .str),
    ("functions", d.functions.map .arr)]

/-- JSON encoding of a node. -/
def encodeNode (n : FlowNode) : Json :=
  mkObj [
    ("id", some (.str n.id)),
    ("type", n.type.map .str),
    ("position", some (encodePos n.position)),
    ("draggable", n.draggable.map .bool),
    ("selectable", n.selectable.map .bool),
    ("deletable", n.deletable.map .bool),
    ("style", n.style.map .obj),
    ("parentNode", n.parentNode.map .str),
    ("extent", n.extent.map .str),
    ("data", some (encodeNodeData n.data))]

/-- JSON encoding of an edge. -/
def encodeEdge (e : FlowEdge) : Json :=
  mkObj [
    ("id", some (.str e.id)),
    ("source", some (.str e.source)),
    ("target", some (.str e.target)),
    ("sourceHandle", e.sourceHandle.map .str),
    ("targetHandle", e.targetHandle.map .str)]

/-- JSON encoding of a whole canvas state. -/
def encodeCanvas (c : CanvasState) : Json :=
  .obj [
    ("nodes", .arr (c.nodes.map encodeNode)),
    ("edges", .arr (c.edges.map encodeEdge))]

/-- JSON encoding of a project-metadata record. -/
def encodeMeta (m : ProjectMetadata) : Json :=
  .obj [
    ("id", .str m.id),
    ("name", .str m.name),
    ("description", .str m.description),
    ("lastModified", .str m.lastModified),
    ("createdAt", .str m.createdAt)]

/-! ## Mock canvas state (`src/lib/data/mock/canvas-state.ts`) -/

/-- `mockCanvasState`: the sample layout served when nothing is stored. -/
def mockCanvasState : CanvasState where
  nodes := [
    { id := "office-area", type := some "group",
      position := ⟨100, 100⟩,
      style := some [("width", .num 400), ("height", .num 300),
        ("padding", .num 20),
        ("backgroundColor", .str "rgba(240, 240, 240, 0.5)")],
      data := { label := "Main Office", type := some "group",
                groupId := none } },
    { id := "meeting-area", type := some "group",
      position := ⟨600, 100⟩,
      style := some [("width", .num 300), ("height", .num 200),
        ("padding", .num 20),
        ("backgroundColor", .str "rgba(240, 240, 240, 0.5)")],
      data := { label := "Meeting Area", type := some "group",
                groupId := none } },
    { id := "main-door", type := some "asset",
      position := ⟨50, 50⟩,
      parentNode := some "office-area", extent := some "parent",
      data := { label := "Main Entrance", typeId := some "door",
                groupId := some "office-area", type := some "asset" } },
    { id := "desk-1", type := some "asset",
      position := ⟨200, 50⟩,
      parentNode := some "office-area", extent := some "parent",
      data := { label := "Hot Desk 1", typeId := some "desk",
                groupId := some "office-area", type := some "asset" } },
    { id := "meeting-room-1", type := some "asset",
      position := ⟨50, 50⟩,
      parentNode := some "meeting-area", extent := some "parent",
      data := { label := "Conference Room", typeId := some "meeting-room",
                groupId := some "meeting-area", type := some "asset" } },
    { id := "projector-1", type := some "asset",
      position := ⟨150, 50⟩,
      parentNode := some "meeting-area", extent := some "parent",
      data := { label := "Main Projector", typeId := some "projector",
                groupId := some "meeting-area", type := some "asset" } },
    { id := "sensor-1", type := some "asset",
      position := ⟨400, 500⟩,
      data := { label := "Motion Sensor", typeId := some "sensor",
                groupId := none, type := some "asset" } }]
  edges := [
    { id := "e1-2", source := "main-door", target := "desk-1" },
    { id := "e2-3", source := "desk-1", target := "meeting-room-1" },
    { id := "e3-4", source := "meeting-room-1", target := "projector-1" },
    { id := "e4-5", source := "meeting-room-1", target := "sensor-1" }]

/-! ## JavaScript string coercion

`importProject` builds the imported name with a template literal,
`` `${projectData.metadata.name} (Imported)` ``, coercing an arbitrary
value to a string with JavaScript `String(...)` semantics. -/

mutual

/-- JavaScript `String(v)` for a JSON value: `null` prints as "null",
arrays join their elements with commas (with `null` elements printing
empty), objects print as "[object Object]". -/
def jsTemplate : Json → String
  | .null => "null"
  | .bool b => if b then "true" else "false"
  | .num n => toString n
  | .str s => s
  | .arr l => jsJoin l
  | .obj _ => "[object Object]"

/-- `Array.prototype.join(',')` as used by array-to-string coercion. -/
def jsJoin : List Json → String
  | [] => ""
  | [v] => jsArrElem v
  | v :: rest => jsArrElem v ++ "," ++ jsJoin rest

/-- An array element under `join`: `null` contributes the empty string. -/
def jsArrElem : Json → String
  | .null => ""
  | v => jsTemplate v

end

/-- JavaScript `String(v)` where `v` may be `undefined`. -/
def jsTemplateOpt : Option Json → String
  | none => "undefined"
  | some v => jsTemplate v

/-! ## SpaceBuilderService (`src/lib/services/space-builder-service.ts`)

Each method of the service class becomes a function over the `Store`.
The class's `config` never influences any method body (the `fetch` calls
that would use it are commented out), so only `getAssetTypes` keeps the
`ServiceConfig` parameter, to state that explicitly. -/

/-- `STORAGE_KEYS.PROJECTS_LIST`. -/
def projectsListKey : String := "space_builder_projects"

/-- `STORAGE_KEYS.PROJECT_PREFIX`, applied to a space id. -/
def projectKey (spaceId : String) : String :=
  "space_builder_project_" ++ spaceId

/-- `DEFAULT_ASSET_TYPES`: the fixed mock asset-type catalogue. -/
def DEFAULT_ASSET_TYPES : List AssetType := [
  { id := "office-room", name := "Office Room", icon := "Building",
    description := "Individual or shared office space for staff members",
    category := "Rooms", isActive := true },
  { id := "meeting-room", name := "Meeting Room", icon := "LayoutDashboard",
    description := "Conference or meeting space with presentation facilities",
    category := "Rooms", isActive := true },
  { id := "server-room", name := "Server Room", icon := "Server",
    description := "Secure space for server and network infrastructure",
    category := "Technical Spaces", isActive := true },
  { id := "main-entrance", name := "Main Entrance", icon := "DoorOpen",
    description := "Primary building entrance with access control",
    category := "Access Points", isActive := true },
  { id := "secure-door", name := "Secure Door", icon := "DoorClosed",
    description := "Access-controlled door with security clearance required",
    category := "Access Points", isActive := true },
  { id := "wifi-ap", name := "WiFi Access Point", icon := "Wifi",
    description := "Wireless network access point",
    category := "Network", isActive := true },
  { id := "network-cabinet", name := "Network Cabinet", icon := "Router",
    description := "Network equipment and patch panel cabinet",
    category := "Network", isActive := true },
  { id := "security-camera", name := "Security Camera", icon := "Camera",
    description := "Surveillance camera with motion detection",
    category := "Security", isActive := true },
  { id := "environment-sensor", name := "Environment Sensor", icon := "Gauge",
    description := "Multi-purpose environmental monitoring sensor",
    category := "Sensors", isActive := true }]

/-- `getAssetTypes`: returns the mock catalogue (the response wrapper
`{ assetTypes }` is elided).  The configuration is an explicit, unused
parameter, as in the method body. -/
def getAssetTypes (_config : ServiceConfig) : List AssetType :=
  DEFAULT_ASSET_TYPES

/-- `createAssetType`: spreads the argument and attaches the mock id
`custom-` + `Date.now()`.  The method touches no state at all. -/
def createAssetType (assetType : AssetTypeNoId) (ts : Nat) : AssetType :=
  { name := assetType.name, icon := assetType.icon,
    description := assetType.description, category := assetType.category,
    isActive := assetType.isActive,
    id := "custom-" ++ toString ts }

/-- `getCanvasState(spaceId?)`: the parse of the blob stored under the
project key when one is present and parseable, otherwise the mock state
(the response wrapper `{ canvasState }` is elided; the method returns the
raw parsed value without validating it against `CanvasState`).  The
localStorage path is guarded by
`if (typeof window !== 'undefined' && spaceId)`, a JavaScript
*truthiness* test: the empty-string space id falls through to the mock
state without reading the store. -/
def getCanvasState (store : Store) (spaceId : Option String) : Json :=
  match spaceId with
  | none => encodeCanvas mockCanvasState
  | some sid =>
    if sid != "" then
      match Store.getItem store (projectKey sid) with
      | none => encodeCanvas mockCanvasState
      | some blob =>
        match JSONparse blob with
        | some parsedState => parsedState
        | none => encodeCanvas mockCanvasState -- console.error, fall through
    else encodeCanvas mockCanvasState

/-- `getProjectsList()`: the parse of the projects-list blob, or the JS
value `[]` when the key is missing or `JSON.parse` throws (the method
performs no validation, so a parseable non-array comes back as-is). -/
def getProjectsList (store : Store) : Json :=
  match Store.getItem store projectsListKey with
  | none => .arr []
  | some blob =>
    match JSONparse blob with
    | some j => j
    | none => .arr []                          -- console.error, return []

/-- The projects list as seen by its array-method callers (`findIndex`,
`filter`, `find`, `push`): `none` models the `TypeError` thrown when the
parsed value is not an array, which each caller's `try`/`catch` absorbs. -/
def getProjectsArr (store : Store) : Option (List Json) :=
  match getProjectsList store with
  | .arr l => some l
  | _ => none

/-- `getCanvasState(spaceId)` as a function of the outcome of its single
`localStorage.getItem` read, which can itself throw (quota or security
failure).  That call sits *outside* the `try` — only `JSON.parse` is
wrapped — so a storage exception escapes to the caller: `Except.error`
on the read propagates as `Except.error` of the whole call.  On a
successful read the behaviour is that of `getCanvasState`. -/
def getCanvasStateAccess (spaceId : Option String)
    (read : Except Unit (Option Stored)) : Except Unit Json :=
  match spaceId with
  | none => .ok (encodeCanvas mockCanvasState)
  | some sid =>
    if sid != "" then
      match read with
      | .error e => .error e                   -- nothing catches this
      | .ok none => .ok (encodeCanvas mockCanvasState)
      | .ok (some blob) =>
        match JSONparse blob with
        | some parsedState => .ok parsedState
        | none => .ok (encodeCanvas mockCanvasState)
    else .ok (encodeCanvas mockCanvasState)

/-- `getProjectsList()` as a function of the outcome of its
`localStorage.getItem` read.  Here the read *is* inside the `try`, so a
storage exception is caught and the empty list returned. -/
def getProjectsListAccess (read : Except Unit (Option Stored)) : Json :=
  match read with
  | .error _ => .arr []                        -- console.error, return []
  | .ok none => .arr []
  | .ok (some blob) =>
    match JSONparse blob with
    | some j => j
    | none => .arr []

/-- The predicate `p.id === spaceId` used on projects-list entries. -/
def idMatches (sid : String) (p : Json) : Bool :=
  p.jget "id" == some (.str sid)

/-- `p.id === spaceId` as an iteration callback that can throw: property
access on a `null` entry raises `TypeError` (`none`); on any other value
it yields `undefined` or the field, and the comparison proceeds. -/
def idProbe (sid : String) (p : Json) : Option Bool :=
  match p with
  | .null => none
  | p => some (idMatches sid p)

/-- `projectsList.findIndex(p => p.id === spaceId)` with JavaScript
semantics: the scan stops at the first match, and a `null` entry reached
before a match makes the callback throw (outer `none`); `some none`
models the `-1` no-match result. -/
def jsFindIndex (sid : String) : List Json → Option (Option Nat)
  | [] => some none
  | p :: rest =>
    match idProbe sid p with
    | none => none
    | some true => some (some 0)
    | some false => (jsFindIndex sid rest).map (fun r => r.map (· + 1))

/-- JavaScript `a || b` where either side may be `undefined`. -/
def jsOrJ (a : Option Json) (b : Option Json) : Option Json :=
  if Json.truthyOpt a then a else b

/-- The `updatedMetadata` record literal built by `saveCanvasState`:
name and description from the optional metadata argument, falling back
via `||` to the existing entry (or the defaults `Project <id>` / empty
string), `lastModified` fresh, `createdAt` preserved from the existing
entry when there is one. -/
def saveMetaEntry (existing : Option Json) (spaceId : String)
    (metadata : Option PartialMeta) (now : String) : Json :=
  mkObj [
    ("id", some (.str spaceId)),
    ("name", jsOrJ ((metadata.bind (·.name)).map .str)
      (match existing with
       | some p => p.jget "name"
       | none => some (.str ("Project " ++ spaceId)))),
    ("description", jsOrJ ((metadata.bind (·.description)).map .str)
      (match existing with
       | some p => p.jget "description"
       | none => some (.str ""))),
    ("lastModified", some (.str now)),
    ("createdAt", match existing with
       | some p => p.jget "createdAt"
       | none => some (.str now))]

/-- The upserted projects list of `saveCanvasState`, given the index
`findIndex` returned: in-place replacement at the found index, else a
push. -/
def upsertList (projectsList : List Json) (existingIdx : Option Nat)
    (spaceId : String) (metadata : Option PartialMeta) (now : String) :
    List Json :=
  let existing : Option Json := existingIdx.bind (fun i => projectsList.get? i)
  let updatedMetadata := saveMetaEntry existing spaceId metadata now
  match existingIdx with
  | some i => projectsList.set i updatedMetadata
  | none => projectsList ++ [updatedMetadata]

/-- `saveCanvasState(spaceId, state, metadata?)`: writes the stringified
state under the project key, then upserts the metadata entry in the
projects list.  `now` stands for the `new Date().toISOString()` reads.
When the stored projects list parses to a non-array, or its `findIndex`
scan throws on a `null` entry, the exception lands in the surrounding
`catch` after the first write, so only the canvas blob is persisted. -/
def saveCanvasState (store : Store) (spaceId : String) (state : CanvasState)
    (metadata : Option PartialMeta) (now : String) : Store :=
  let s1 := Store.setItem store (projectKey spaceId)
    (JSONstringify (encodeCanvas state))
  match getProjectsArr s1 with
  | none => s1
  | some projectsList =>
    match jsFindIndex spaceId projectsList with
    | none => s1
    | some existingIdx =>
      Store.setItem s1 projectsListKey
        (JSONstringify (.arr
          (upsertList projectsList existingIdx spaceId metadata now)))

/-- `deleteProject(projectId)`: removes the project blob, filters the
entry out of the projects list, returns `true`; returns `false` (after
the blob removal) only when the stored list is a parseable non-array, so
that `filter` throws into the `catch`. -/
def deleteProject (store : Store) (projectId : String) : Store × Bool :=
  let s1 := Store.removeItem store (projectKey projectId)
  match getProjectsArr s1 with
  | none => (s1, false)
  | some projectsList =>
    let updatedList := projectsList.filter (fun p => !(idMatches projectId p))
    (Store.setItem s1 projectsListKey (JSONstringify (.arr updatedList)), true)

/-- `exportProject(projectId)`: `some` blob of the JSON file offered for
download (the DOM anchor mechanics are outside the model), or `none` when
the method returns `false`: no stored blob, a `JSON.parse` throw, or a
non-array projects list making `find` throw.  A missing metadata entry
leaves the `metadata` key out of the file (`JSON.stringify` drops the
`undefined` field). -/
def exportProject (store : Store) (projectId : String) : Option Stored :=
  match Store.getItem store (projectKey projectId) with
  | none => none
  | some blob =>
    match getProjectsArr store with
    | none => none
    | some projectsList =>
      let projectMetadata := projectsList.find? (idMatches projectId)
      match JSONparse blob with
      | none => none
      | some parsed =>
        some (JSONstringify (mkObj [
          ("metadata", projectMetadata),
          ("canvasState", some parsed)]))

/-- The `newMetadata` record literal `importProject` appends for the
imported project: name coerced through the template literal with the
`(Imported)` suffix, description defaulted through `|| ''`, both
timestamps fresh. -/
def importedMeta (metaJ : Json) (newProjectId now : String) : Json :=
  .obj [
    ("id", .str newProjectId),
    ("name", .str (jsTemplateOpt (metaJ.jget "name") ++ " (Imported)")),
    ("description", match metaJ.jget "description" with
       | some d => if d.truthy then d else .str ""
       | none => .str ""),
    ("lastModified", .str now),
    ("createdAt", .str now)]

/-- `importProject(file)`: parses the file content, rejects (`none`)
unless both `canvasState` and `metadata` are present and truthy, then
stores the stringified `canvasState` under the fresh id
`imported-` + `Date.now()` and appends a metadata entry (`importedMeta`)
to the projects list.  Returns the resolved project id together with the
updated store; on the non-array-projects-list throw the canvas blob is
already written when the promise rejects. -/
def importProject (store : Store) (fileContent : Stored) (ts : Nat)
    (now : String) : Option String × Store :=
  match JSONparse fileContent with
  | none => (none, store)
  | some projectData =>
    if !(Json.truthyOpt (projectData.jget "canvasState")) ||
       !(Json.truthyOpt (projectData.jget "metadata")) then
      (none, store)
    else
      let newProjectId := "imported-" ++ toString ts
      let canvasJ := (projectData.jget "canvasState").getD .null
      let s1 := Store.setItem store (projectKey newProjectId)
        (JSONstringify canvasJ)
      match getProjectsArr s1 with
      | none => (none, s1)
      | some projectsList =>
        let metaJ := (projectData.jget "metadata").getD .null
        (some newProjectId,
         Store.setItem s1 projectsListKey
           (JSONstringify (.arr (projectsList ++
             [importedMeta metaJ newProjectId now]))))

/-! ## Canvas UI operations

`SpaceBuilderContent` in `src/app/page.tsx` and in
`src/app/space-builder/components/space-builder.tsx` define the node
operations `addNode`, `updateNode`, `handleGroupChange` and `onConnect`
over the `(nodes, edges)` state.  The two copies are embedded separately
where both are cited (`handleGroupChange`); the state-transition model
uses the `src/app/page.tsx` copy cited by the invariants claim. -/

/-- JavaScript object spread `{...a, ...b}` on style objects: `a`'s keys
in order with `b`'s values taking precedence, then `b`'s remaining keys. -/
def spreadObj (a b : List (String × Json)) : List (String × Json) :=
  (a.map (fun kv =>
    match b.find? (fun kv2 => kv2.1 == kv.1) with
    | some kv2 => (kv.1, kv2.2)
    | none => kv))
  ++ b.filter (fun kv2 => !(a.any (fun kv => kv.1 == kv2.1)))

/-- The data merge `{...node.data, ...updatedNode.data, parentId:
updatedNode.data.parentId}` in `updateNode`: fields present on the update
win; `parentId` is overridden unconditionally. -/
def mergeData (a b : NodeData) : NodeData :=
  { label := b.label
    typeId := b.typeId <|> a.typeId
    groupId := b.groupId
    type := b.type <|> a.type
    parentId := b.parentId
    functions := b.functions <|> a.functions }

/-- The node literal built by `addNode(typeId, nodeType)` in both
components: id `` `${nodeType}-${Date.now()}` ``, position at the
viewport centre, group nodes get the minimum-dimension style, asset nodes
get `extent: 'parent'`. -/
def mkNewNode (typeId : String) (nodeType : NodeKind)
    (centerScreen : Position) (ts : Nat) : FlowNode :=
  { id := nodeType.toStr ++ "-" ++ toString ts
    type := some nodeType.toStr
    position := centerScreen
    draggable := some true
    selectable := some true
    deletable := some true
    style := match nodeType with
      | .group => some [("width", .num 300), ("height", .num 200),
          ("minWidth", .num 200), ("minHeight", .num 150)]
      | .asset => none
    data := { label := match nodeType with
                | .group => "New Group"
                | .asset => typeId
              typeId := some typeId
              type := some nodeType.toStr
              groupId := none }
    extent := match nodeType with
      | .asset => some "parent"
      | .group => none }

/-- `updateNode(updatedNode)`: maps over the nodes, replacing the one
with a matching id by the spread-merge the component builds (parent link,
extent and position taken from the update — `updatedNode.position ||
node.position` always takes the update since a position object is truthy
— style and data merged by spread). -/
def updateNodeIn (nodes : List FlowNode) (updatedNode : FlowNode) :
    List FlowNode :=
  nodes.map (fun node =>
    if node.id == updatedNode.id then
      { node with
        parentNode := updatedNode.parentNode
        extent := updatedNode.extent
        position := updatedNode.position
        style := some (spreadObj (node.style.getD [])
          (updatedNode.style.getD []))
        data := mergeData node.data updatedNode.data }
    else node)

/-- The updated node built by `handleGroupChange(groupId)` in
`src/app/page.tsx` from the selected node: joining a group sets the
parent link, `'parent'` extent, group membership in the data, and resets
the position to (50, 50); `"none"` removes the parent link and keeps the
position. -/
def pageGroupChangeUpdate (selectedNode : FlowNode) (groupId : String) :
    FlowNode :=
  { selectedNode with
    parentNode := if groupId == "none" then none else some groupId
    extent := if groupId == "none" then none else some "parent"
    data := { selectedNode.data with
      groupId := if groupId == "none" then none else some groupId
      parentId := if groupId == "none" then none else some groupId }
    position := if groupId == "none" then selectedNode.position
      else ⟨50, 50⟩ }

/-- The updated node built by `handleGroupChange(groupId)` in
`src/app/space-builder/components/space-builder.tsx`; the source is
line-for-line the same object construction as the `src/app/page.tsx`
copy. -/
def sbGroupChangeUpdate (selectedNode : FlowNode) (groupId : String) :
    FlowNode :=
  { selectedNode with
    parentNode := if groupId == "none" then none else some groupId
    extent := if groupId == "none" then none else some "parent"
    data := { selectedNode.data with
      groupId := if groupId == "none" then none else some groupId
      parentId := if groupId == "none" then none else some groupId }
    position := if groupId == "none" then selectedNode.position
      else ⟨50, 50⟩ }

/-- A reactflow `Connection` passed to `onConnect`. -/
structure Connection where
  source : Option String := none
  target : Option String := none
  sourceHandle : Option String := none
  targetHandle : Option String := none
deriving Repr, DecidableEq

/-- reactflow's `addEdge` helper (external library, modelled from its
documented behaviour): drops incomplete connections, otherwise appends an
edge with the generated id unless one with that id already exists.  The
node invariants below do not depend on its details: it never touches
nodes. -/
def addEdgeRF (params : Connection) (eds : List FlowEdge) : List FlowEdge :=
  match params.source, params.target with
  | some src, some tgt =>
    let eid := "reactflow__edge-" ++ src ++ params.sourceHandle.getD "" ++
      "-" ++ tgt ++ params.targetHandle.getD ""
    if eds.any (fun e => e.id == eid) then eds
    else eds ++ [{ id := eid, source := src, target := tgt,
                   sourceHandle := params.sourceHandle,
                   targetHandle := params.targetHandle }]
  | _, _ => eds

/-- One UI operation on the canvas state, with the values the browser
supplies (viewport centre, `Date.now()`, the selected node snapshot) as
explicit arguments. -/
inductive CanvasOp where
  | addNode (typeId : String) (nodeType : NodeKind)
      (centerScreen : Position) (ts : Nat) : CanvasOp
  | updateNode (updatedNode : FlowNode) : CanvasOp
  | groupChange (selectedNode : FlowNode) (groupId : String) : CanvasOp
  | connect (params : Connection) : CanvasOp

/-- The effect of one UI operation on the `(nodes, edges)` state
(`src/app/page.tsx`): `addNode` concatenates the new node,
`updateNode` maps the merge over the nodes, `handleGroupChange` routes
its updated node through `updateNode`, `onConnect` only touches edges.
This is the canvas projection of `applyOpStore` below, which also
carries the synchronous `saveCanvasState` call each operation makes. -/
def applyOp (s : CanvasState) : CanvasOp → CanvasState
  | .addNode tid k pos ts =>
    { s with nodes := s.nodes ++ [mkNewNode tid k pos ts] }
  | .updateNode u => { s with nodes := updateNodeIn s.nodes u }
  | .groupChange sel gid =>
    { s with nodes := updateNodeIn s.nodes (pageGroupChangeUpdate sel gid) }
  | .connect p => { s with edges := addEdgeRF p s.edges }

/-- One UI operation together with its synchronous persistence effect:
inside their state updaters, `addNode`, `updateNode` (hence
`handleGroupChange`) and `onConnect` each call
`saveCanvasState(currentProjectId, …)` immediately with the updated
nodes/edges (`'default'` in the space-builder component), without
waiting for any debounce timer.  The saved state is exactly the new
canvas state in all three cases (`onConnect` saves the unchanged nodes
with the new edges). -/
def applyOpStore (pid now : String) (sc : CanvasState × Store)
    (op : CanvasOp) : CanvasState × Store :=
  let s' := applyOp sc.1 op
  (s', saveCanvasState sc.2 pid s' none now)

/-- Canvas states reachable from the mock state, or from a loaded state
(`getCanvasState` hands the UI whatever the stored blob parsed to), by
the UI operations. -/
inductive Reachable : CanvasState → Prop
  | init : Reachable mockCanvasState
  | loaded (s : CanvasState) : Reachable s
  | step (s : CanvasState) (op : CanvasOp) :
      Reachable s → Reachable (applyOp s op)

/-- `true` when an optional parent reference is absent or names one of
the given ids. -/
def refOkB (ids : List String) : Option String → Bool
  | some p => ids.contains p
  | none => true

/-- The ids of all nodes of a state. -/
def nodeIds (s : CanvasState) : List String := s.nodes.map (·.id)

/-- The invariant of the claim: node ids are pairwise distinct, and every
node's `parentNode` and `data.groupId` reference an existing node. -/
def NodesOK (s : CanvasState) : Prop :=
  (nodeIds s).Nodup ∧
  ∀ n ∈ s.nodes, refOkB (nodeIds s) n.parentNode = true ∧
    refOkB (nodeIds s) n.data.groupId = true

instance (s : CanvasState) : Decidable (NodesOK s) := by
  unfold NodesOK; infer_instance

/-- The guard under which the UI operations do preserve the invariant:
`addNode` with a timestamp whose generated id is fresh, `updateNode` with
parent references into the current state, `handleGroupChange` targeting
`"none"` or an existing node id, any connection. -/
def opGuard (s : CanvasState) : CanvasOp → Prop
  | .addNode _ k _ ts => (k.toStr ++ "-" ++ toString ts) ∉ nodeIds s
  | .updateNode u => refOkB (nodeIds s) u.parentNode = true ∧
      refOkB (nodeIds s) u.data.groupId = true
  | .groupChange _ gid => gid = "none" ∨ gid ∈ nodeIds s
  | .connect _ => True

/-- Canvas states reachable under the guards of `opGuard` from the mock
state, or from a loaded state that itself satisfies the invariant. -/
inductive GReachable : CanvasState → Prop
  | init : GReachable mockCanvasState
  | loaded (s : CanvasState) : NodesOK s → GReachable s
  | step (s : CanvasState) (op : CanvasOp) :
      GReachable s → opGuard s op → GReachable (applyOp s op)

/-! ## Process-builder and teams features (for the duplication claim)

`src/app/process-builder/page.tsx` (`ProcessBuilderPage`) holds exactly
two sidebar booleans and renders a placeholder canvas
(`"Process Builder Canvas"`); the teams feature's canvas
(`TeamsCanvas`) is likewise a placeholder `div`.  Neither defines any
node, grouping or containment operation. -/

/-- The state of `ProcessBuilderPage`: the two `useState` booleans. -/
structure PBState where
  isLeftSidebarOpen : Bool := true
  isRightSidebarOpen : Bool := true
deriving Repr, DecidableEq

/-- `onToggle` of the process-builder left sidebar. -/
def pbToggleLeft (s : PBState) : PBState :=
  { s with isLeftSidebarOpen := !s.isLeftSidebarOpen }

/-- `onToggle` of the process-builder right sidebar. -/
def pbToggleRight (s : PBState) : PBState :=
  { s with isRightSidebarOpen := !s.isRightSidebarOpen }

/-- The node/group-change operations defined by the process-builder
feature: there are none — `ProcessBuilderPage` manipulates only `PBState`
and its canvas is a static placeholder. -/
def processBuilderNodeOps : List (FlowNode → String → FlowNode) := []

/-- The node/group-change operations defined by the teams feature: there
are none — `TeamsCanvas` is a static placeholder and the teams management
screens manipulate `User`/`Group`/`Team` records, not canvas nodes. -/
def teamsNodeOps : List (FlowNode → String → FlowNode) := []

/-! ## Debounced auto-save (for the temporal claim)

Both components register a `useEffect` on `[nodes, edges]` that schedules
`saveCanvasState` with `setTimeout` and returns a cleanup that
`clearTimeout`s it: delay 1000 ms in
`src/app/space-builder/components/space-builder.tsx`, delay 2000 ms — and
an early return when `nodes` and `edges` are both empty — in
`src/app/page.tsx`.  The model: a change event first runs the previous
effect's cleanup (clearing the timer it created, a no-op if that timer
already fired), then the new effect body; a fire event runs every timer
whose deadline has been reached.  Times are milliseconds. -/

/-- The timer state of one debounced-save effect. -/
structure DebState where
  /-- Live `setTimeout` timers: (timer id, deadline). -/
  timers : List (Nat × Nat) := []
  /-- The timer id the pending effect cleanup would `clearTimeout`. -/
  lastId : Option Nat := none
  /-- Fresh timer id supply. -/
  nextId : Nat := 0
  /-- Deadlines of the saves that have run, oldest first. -/
  saves : List Nat := []
deriving Repr, DecidableEq

/-- An event of the debounce timeline: a change of `nodes`/`edges`
re-rendering at time `t` (with whether both are empty at that render), or
the event loop running due timers at time `t`. -/
inductive DebEvent where
  | change (t : Nat) (emptyCanvas : Bool) : DebEvent
  | fire (t : Nat) : DebEvent
deriving Repr, DecidableEq

/-- The time at which an event happens. -/
def DebEvent.time : DebEvent → Nat
  | .change t _ => t
  | .fire t => t

/-- One step of the debounce machine with debounce delay `delay` and
`skipEmpty` the `src/app/page.tsx` first-render guard (`return` when
nodes and edges are both empty). -/
def debStep (delay : Nat) (skipEmpty : Bool) (s : DebState) :
    DebEvent → DebState
  | .change t emptyCanvas =>
    let cleared := match s.lastId with
      | some i => s.timers.filter (fun tm => !(tm.1 == i))
      | none => s.timers
    if skipEmpty && emptyCanvas then
      { s with timers := cleared, lastId := none }
    else
      { s with timers := cleared ++ [(s.nextId, t + delay)],
               lastId := some s.nextId, nextId := s.nextId + 1 }
  | .fire t =>
    { s with timers := s.timers.filter (fun tm => !(decide (tm.2 ≤ t))),
             saves := s.saves ++
               (s.timers.filter (fun tm => decide (tm.2 ≤ t))).map (·.2) }

/-- Running the debounce machine from the initial (no timer) state over a
timeline of events. -/
def debRun (delay : Nat) (skipEmpty : Bool) (evs : List DebEvent) : DebState :=
  evs.foldl (debStep delay skipEmpty) {}

/-- The change times of a timeline. -/
def changeTimes (evs : List DebEvent) : List Nat :=
  evs.filterMap (fun e => match e with
    | .change t _ => some t
    | .fire _ => none)

/-- A timeline is ordered when event times never decrease. -/
def Ordered (evs : List DebEvent) : Prop :=
  evs.map DebEvent.time |>.Chain' (· ≤ ·)

/-- No change event of the timeline falls strictly inside the debounce
window `(t, t + delay)`. -/
def Quiet (evs : List DebEvent) (t delay : Nat) : Prop :=
  ∀ t' ∈ changeTimes evs, ¬ (t < t' ∧ t' < t + delay)

/-- Structural invariant of the debounce machine: at most one live timer,
and a live timer is the one the pending cleanup would clear. -/
def DebInv (s : DebState) : Prop :=
  s.timers = [] ∨ ∃ i d, s.timers = [(i, d)] ∧ s.lastId = some i

/-! # Theorems

First the supporting lemmas about the store and the encodings, then one
theorem per claim (with a witness or counterexample where required). -/

theorem Store.getItem_setItem_self (s : Store) (k : String) (v : Stored) :
    Store.getItem (Store.setItem s k v) k = some v := by
  induction s with
  | nil => simp [Store.getItem, Store.setItem, List.find?]
  | cons kv rest ih =>
    by_cases h : kv.1 = k
    · simp [Store.setItem, Store.getItem, List.find?, h]
    · have hb : (kv.1 == k) = false := beq_eq_false_iff_ne.mpr h
      simp [Store.setItem, Store.getItem, List.find?, hb] at ih ⊢
      exact ih

theorem Store.getItem_setItem_ne (s : Store) (k k' : String) (v : Stored)
    (h : k' ≠ k) :
    Store.getItem (Store.setItem s k v) k' = Store.getItem s k' := by
  induction s with
  | nil =>
    simp [Store.getItem, Store.setItem, List.find?,
      (by exact beq_eq_false_iff_ne.mpr (fun e => h e.symm) : (k == k') = false)]
  | cons kv rest ih =>
    by_cases hk : kv.1 = k
    · have : (kv.1 == k') = false := beq_eq_false_iff_ne.mpr (hk ▸ fun e => h e.symm)
      simp [Store.setItem, Store.getItem, List.find?, hk, this,
        (by exact beq_eq_false_iff_ne.mpr (fun e => h e.symm) : (k == k') = false)]
    · simp [Store.setItem, Store.getItem, List.find?, hk] at ih ⊢
      by_cases hk' : kv.1 = k'
      · simp [hk']
      · have hb : (kv.1 == k') = false := beq_eq_false_iff_ne.mpr hk'
        simp [hb]
        exact ih

theorem Store.getItem_removeItem_self (s : Store) (k : String) :
    Store.getItem (Store.removeItem s k) k = none := by
  have hf : List.find? (fun kv => kv.1 == k) (Store.removeItem s k) = none := by
    rw [List.find?_eq_none]
    intro x hx
    have hm := (List.mem_filter.mp hx).2
    simpa using hm
  simp [Store.getItem, hf]

theorem Store.getItem_removeItem_ne (s : Store) (k k' : String) (h : k' ≠ k) :
    Store.getItem (Store.removeItem s k) k' = Store.getItem s k' := by
  induction s with
  | nil => rfl
  | cons kv rest ih =>
    obtain ⟨k1, v1⟩ := kv
    by_cases h1 : k1 = k
    · have hb : (k1 == k) = true := beq_iff_eq.mpr h1
      have hb' : (k1 == k') = false :=
        beq_eq_false_iff_ne.mpr (h1 ▸ fun e => h e.symm)
      simp only [Store.removeItem, List.filter, hb, Bool.not_true] at ih ⊢
      simp only [Store.getItem, List.find?, hb']
      exact ih
    · have hb : (k1 == k) = false := beq_eq_false_iff_ne.mpr h1
      by_cases h2 : k1 = k'
      · have hb' : (k1 == k') = true := beq_iff_eq.mpr h2
        simp only [Store.removeItem, List.filter, hb, Bool.not_false]
        simp only [Store.getItem, List.find?, hb', Option.map_some]
      · have hb' : (k1 == k') = false := beq_eq_false_iff_ne.mpr h2
        simp only [Store.removeItem, List.filter, hb, Bool.not_false] at ih ⊢
        simp only [Store.getItem, List.find?, hb'] at ih ⊢
        exact ih

/-- The project key of any space id differs from the projects-list key:
the former starts with the 22 characters `space_builder_project_`, the
latter is `space_builder_projects`. -/
theorem projectKey_ne_listKey (sid : String) :
    projectKey sid ≠ projectsListKey := by
  intro h
  have hd : ("space_builder_project_" : String).data ++ sid.data
      = ("space_builder_projects" : String).data := by
    have hc := congrArg String.data h
    rwa [show projectKey sid = "space_builder_project_" ++ sid from rfl,
      String.data_append,
      show projectsListKey = "space_builder_projects" from rfl] at hc
  have h22 := congrArg (List.take 22) hd
  rw [show (22 : Nat) = ("space_builder_project_" : String).data.length from
      by decide,
    List.take_left] at h22
  exact absurd h22 (by decide)

/-- Writing a project blob never disturbs the projects list (the keys are
distinct for every space id). -/
theorem getProjectsArr_setItem_projectKey (store : Store) (x : String)
    (v : Stored) :
    getProjectsArr (Store.setItem store (projectKey x) v)
      = getProjectsArr store := by
  unfold getProjectsArr getProjectsList
  rw [Store.getItem_setItem_ne _ _ _ _ (fun e => projectKey_ne_listKey x e.symm)]

/-- C8: all services are mock data providers: for every configuration
`getAssetTypes` returns exactly the fixed `DEFAULT_ASSET_TYPES` list of
nine asset types; `createAssetType` persists nothing (it is a pure
function of its argument and the timestamp and touches no store) and
returns its argument extended with the generated id `custom-` plus the
timestamp; and the asset-type list observable from `getAssetTypes` is the
same fixed list under every configuration, hence unchanged by anything. -/
theorem C8_asset_service_is_mock :
    (∀ config : ServiceConfig, getAssetTypes config = DEFAULT_ASSET_TYPES) ∧
    DEFAULT_ASSET_TYPES.length = 9 ∧
    (∀ (a : AssetTypeNoId) (ts : Nat),
      createAssetType a ts =
        { id := "custom-" ++ toString ts, name := a.name, icon := a.icon,
          description := a.description, category := a.category,
          isActive := a.isActive }) ∧
    (∀ c1 c2 : ServiceConfig, getAssetTypes c1 = getAssetTypes c2) :=
  ⟨fun _ => rfl, rfl, fun _ _ => rfl, fun _ _ => rfl⟩

/-- C2 counterexample: the claim also promises the fallback when
"localStorage access fails", but in `getCanvasState` the
`localStorage.getItem` call sits *outside* the `try`/`catch` (only
`JSON.parse` is wrapped), so a storage access failure escapes to the
caller instead of yielding the mock state.  Concretely, with the read
throwing, `getCanvasState("p1")` propagates the error and does not
return `mockCanvasState`. -/
theorem C2_counterexample :
    getCanvasStateAccess (some "p1") (Except.error ())
      = Except.error () ∧
    getCanvasStateAccess (some "p1") (Except.error ())
      ≠ Except.ok (encodeCanvas mockCanvasState) :=
  ⟨rfl, fun h => by cases h⟩

/-- C2 (amended): `getCanvasState` and `getProjectsList` return the
fixed fallbacks — `mockCanvasState` and the empty list — when the
stored blob is absent or `JSON.parse` fails, surfacing those errors only
via console logging with no retry; `getProjectsList` also absorbs a
failure of the `localStorage` access itself (its read is inside the
`try`), but `getCanvasState` does not: its `localStorage.getItem` call
is outside the `try`/`catch`, so a storage access failure propagates to
the caller.  On a successful read, the access-aware function agrees
with the pure one. -/
theorem C2_amended_fallbacks_and_propagation :
    (∀ (store : Store) (sid : String),
      Store.getItem store (projectKey sid) = none →
      getCanvasState store (some sid) = encodeCanvas mockCanvasState) ∧
    (∀ (store : Store) (sid : String) (blob : Stored),
      Store.getItem store (projectKey sid) = some blob →
      JSONparse blob = none →
      getCanvasState store (some sid) = encodeCanvas mockCanvasState) ∧
    (∀ store : Store, Store.getItem store projectsListKey = none →
      getProjectsList store = Json.arr []) ∧
    (∀ (store : Store) (blob : Stored),
      Store.getItem store projectsListKey = some blob →
      JSONparse blob = none → getProjectsList store = Json.arr []) ∧
    getProjectsListAccess (Except.error ()) = Json.arr [] ∧
    (∀ sid : String, sid ≠ "" →
      getCanvasStateAccess (some sid) (Except.error ())
        = Except.error ()) ∧
    (∀ (store : Store) (sid : String),
      getCanvasStateAccess (some sid)
        (Except.ok (Store.getItem store (projectKey sid)))
        = Except.ok (getCanvasState store (some sid))) := by
  refine ⟨?_, ?_, ?_, ?_, rfl, ?_, ?_⟩
  · intro store sid h
    by_cases hs : (sid != "") = true <;> simp [getCanvasState, hs, h]
  · intro store sid blob h hp
    by_cases hs : (sid != "") = true <;> simp [getCanvasState, hs, h, hp]
  · intro store h
    simp [getProjectsList, h]
  · intro store blob h hp
    simp [getProjectsList, h, hp]
  · intro sid hsid
    have hs : (sid != "") = true := bne_iff_ne.mpr hsid
    simp [getCanvasStateAccess, hs]
  · intro store sid
    by_cases hs : (sid != "") = true
    · rcases h : Store.getItem store (projectKey sid) with _ | blob
      · simp [getCanvasStateAccess, getCanvasState, hs, h]
      · rcases hp : JSONparse blob with _ | parsed <;>
          simp [getCanvasStateAccess, getCanvasState, hs, h, hp]
    · simp [getCanvasStateAccess, getCanvasState, hs]

/-- C2 witness: the fallbacks at concrete stores — a missing key, an
unparseable blob under each key, a failing list read — and the
agreement of the access-aware read with the pure one at a stored
blob. -/
theorem C2_witness :
    getCanvasState Store.empty (some "p1") = encodeCanvas mockCanvasState ∧
    getCanvasState [(projectKey "p1", Stored.raw "not json")] (some "p1")
      = encodeCanvas mockCanvasState ∧
    getProjectsList Store.empty = Json.arr [] ∧
    getProjectsList [(projectsListKey, Stored.raw "not json")]
      = Json.arr [] ∧
    getCanvasStateAccess (some "p1") (Except.error ())
      = Except.error () ∧
    getCanvasStateAccess (some "p1")
      (Except.ok (Store.getItem [(projectKey "p1",
        JSONstringify (Json.num 2))] (projectKey "p1")))
      = Except.ok (getCanvasState [(projectKey "p1",
        JSONstringify (Json.num 2))] (some "p1")) :=
  ⟨C2_amended_fallbacks_and_propagation.1 Store.empty "p1" rfl,
   C2_amended_fallbacks_and_propagation.2.1 _ "p1" (Stored.raw "not json")
     rfl rfl,
   C2_amended_fallbacks_and_propagation.2.2.1 Store.empty rfl,
   C2_amended_fallbacks_and_propagation.2.2.2.1 _ (Stored.raw "not json")
     rfl rfl,
   C2_amended_fallbacks_and_propagation.2.2.2.2.2.1 "p1" (by decide),
   C2_amended_fallbacks_and_propagation.2.2.2.2.2.2
     [(projectKey "p1", JSONstringify (Json.num 2))] "p1"⟩

/-- C3 counterexample: the empty JSON object is parseable JSON, yet
`importProject` rejects it (`Invalid project file format`) because its
`canvasState` and `metadata` fields are missing — so it is not the case
that every parseable file is accepted. -/
theorem C3_counterexample :
    JSONparse (JSONstringify (Json.obj [])) = some (Json.obj []) ∧
    importProject Store.empty (JSONstringify (Json.obj [])) 0
      "2024-01-01T00:00:00.000Z" = (none, Store.empty) :=
  ⟨rfl, rfl⟩

/-- C3 (amended): the import path performs no schema versioning and no
structural validation beyond requiring the `canvasState` and `metadata`
fields of the parsed file to be present and truthy: for every file whose
content is parseable JSON satisfying that check (and every store whose
projects list is an array), `importProject` accepts the file and stores
its `canvasState` field stringified, whatever its structure. -/
theorem importProject_success (store : Store) (j cv mv : Json) (ts : Nat)
    (now : String) (l : List Json)
    (harr : getProjectsArr store = some l)
    (hcv : j.jget "canvasState" = some cv) (htr : cv.truthy = true)
    (hmv : j.jget "metadata" = some mv) (hmt : mv.truthy = true) :
    importProject store (JSONstringify j) ts now =
      (some ("imported-" ++ toString ts),
       Store.setItem
         (Store.setItem store (projectKey ("imported-" ++ toString ts))
           (Stored.jval cv))
         projectsListKey
         (Stored.jval (Json.arr (l ++
           [importedMeta mv ("imported-" ++ toString ts) now])))) := by
  have harr1 : getProjectsArr (Store.setItem store
      (projectKey ("imported-" ++ toString ts)) (Stored.jval cv))
      = some l := by
    rw [getProjectsArr_setItem_projectKey]; exact harr
  unfold importProject
  simp only [JSONstringify, JSONparse, hcv, hmv, Json.truthyOpt, htr, hmt,
    Bool.not_true, Bool.or_self, Bool.false_eq_true, if_false,
    Option.getD_some, harr1]

theorem C3_amended_import_validation :
    ∀ (store : Store) (j cv mv : Json) (ts : Nat) (now : String)
      (l : List Json),
      getProjectsArr store = some l →
      j.jget "canvasState" = some cv → cv.truthy = true →
      j.jget "metadata" = some mv → mv.truthy = true →
      (importProject store (JSONstringify j) ts now).1
        = some ("imported-" ++ toString ts) ∧
      Store.getItem (importProject store (JSONstringify j) ts now).2
        (projectKey ("imported-" ++ toString ts))
        = some (JSONstringify cv) := by
  intro store j cv mv ts now l harr hcv htr hmv hmt
  rw [importProject_success store j cv mv ts now l harr hcv htr hmv hmt]
  refine ⟨rfl, ?_⟩
  dsimp only
  rw [Store.getItem_setItem_ne _ _ _ _
      (projectKey_ne_listKey ("imported-" ++ toString ts)),
    Store.getItem_setItem_self]
  rfl

/-- C3 witness: a file whose `canvasState` is a bare number and whose
`metadata` is a bare string — nothing like the export schema — is
accepted and stored as-is. -/
theorem C3_witness :
    (importProject Store.empty
      (JSONstringify (Json.obj [("canvasState", Json.num 7),
        ("metadata", Json.str "junk")])) 5 "2024-01-01T00:00:00.000Z").1
      = some "imported-5" ∧
    Store.getItem (importProject Store.empty
      (JSONstringify (Json.obj [("canvasState", Json.num 7),
        ("metadata", Json.str "junk")])) 5 "2024-01-01T00:00:00.000Z").2
      (projectKey "imported-5") = some (JSONstringify (Json.num 7)) :=
  C3_amended_import_validation Store.empty _ (Json.num 7) (Json.str "junk") 5
    "2024-01-01T00:00:00.000Z" [] rfl rfl rfl rfl rfl

/-- Evaluating `saveCanvasState` when the stored projects list is an
array and the `findIndex` scan completes: both keys are written. -/
theorem saveCanvasState_eq_of_arr (store : Store) (sid : String)
    (state : CanvasState) (md : Option PartialMeta) (now : String)
    (l : List Json) (idx : Option Nat)
    (harr : getProjectsArr store = some l)
    (hfi : jsFindIndex sid l = some idx) :
    saveCanvasState store sid state md now =
      Store.setItem
        (Store.setItem store (projectKey sid)
          (Stored.jval (encodeCanvas state)))
        projectsListKey
        (Stored.jval (Json.arr (upsertList l idx sid md now))) := by
  have h1 : getProjectsArr (Store.setItem store (projectKey sid)
      (JSONstringify (encodeCanvas state))) = some l := by
    rw [getProjectsArr_setItem_projectKey]; exact harr
  unfold saveCanvasState
  simp only [h1, hfi]
  rfl

/-- Evaluating `saveCanvasState` when the stored projects list is a
parseable non-array: only the canvas blob is written. -/
theorem saveCanvasState_eq_of_notArr (store : Store) (sid : String)
    (state : CanvasState) (md : Option PartialMeta) (now : String)
    (harr : getProjectsArr store = none) :
    saveCanvasState store sid state md now =
      Store.setItem store (projectKey sid)
        (Stored.jval (encodeCanvas state)) := by
  have h1 : getProjectsArr (Store.setItem store (projectKey sid)
      (JSONstringify (encodeCanvas state))) = none := by
    rw [getProjectsArr_setItem_projectKey]; exact harr
  unfold saveCanvasState
  simp only [h1]
  rfl

/-- Evaluating `saveCanvasState` when the projects list is an array but
its `findIndex` scan throws on a `null` entry: only the canvas blob is
written; the projects-list key keeps its old value. -/
theorem saveCanvasState_eq_of_nullScan (store : Store) (sid : String)
    (state : CanvasState) (md : Option PartialMeta) (now : String)
    (l : List Json) (harr : getProjectsArr store = some l)
    (hfi : jsFindIndex sid l = none) :
    saveCanvasState store sid state md now =
      Store.setItem store (projectKey sid)
        (Stored.jval (encodeCanvas state)) := by
  have h1 : getProjectsArr (Store.setItem store (projectKey sid)
      (JSONstringify (encodeCanvas state))) = some l := by
    rw [getProjectsArr_setItem_projectKey]; exact harr
  unfold saveCanvasState
  simp only [h1, hfi]
  rfl

/-- `saveCanvasState` always writes the stringified state under the
project key, in every branch. -/
theorem saveCanvasState_writes_blob (store : Store) (sid : String)
    (state : CanvasState) (md : Option PartialMeta) (now : String) :
    Store.getItem (saveCanvasState store sid state md now)
      (projectKey sid) = some (JSONstringify (encodeCanvas state)) := by
  rcases h : getProjectsArr store with _ | l
  · rw [saveCanvasState_eq_of_notArr store sid state md now h,
      Store.getItem_setItem_self]
    rfl
  · rcases hfi : jsFindIndex sid l with _ | idx
    · rw [saveCanvasState_eq_of_nullScan store sid state md now l h hfi,
        Store.getItem_setItem_self]
      rfl
    · rw [saveCanvasState_eq_of_arr store sid state md now l idx h hfi,
        Store.getItem_setItem_ne _ _ _ _ (projectKey_ne_listKey sid),
        Store.getItem_setItem_self]
      rfl

/-- C1 counterexample: the claim fails as stated at two boundary inputs.
First, `spaceId = ""` is falsy, so even with a parseable blob stored
under `space_builder_project_`, `getCanvasState("")` falls through to
the mock state rather than the parse.  Second, when the stored projects
list is the array `[null]`, the `findIndex` scan throws into the
`catch`, so `saveCanvasState` writes the project blob but never updates
the metadata list. -/
theorem C1_counterexample :
    Store.getItem [(projectKey "", JSONstringify (Json.num 1))]
      (projectKey "") = some (JSONstringify (Json.num 1)) ∧
    JSONparse (JSONstringify (Json.num 1)) = some (Json.num 1) ∧
    getCanvasState [(projectKey "", JSONstringify (Json.num 1))]
      (some "") = encodeCanvas mockCanvasState ∧
    encodeCanvas mockCanvasState ≠ Json.num 1 ∧
    Store.getItem (saveCanvasState
        [(projectsListKey, JSONstringify (Json.arr [Json.null]))]
        "p" ⟨[], []⟩ none "T") projectsListKey
      = some (JSONstringify (Json.arr [Json.null])) :=
  ⟨rfl, rfl, rfl, fun h => Json.noConfusion h, rfl⟩

/-- C1 (amended): for every space id and canvas state, `saveCanvasState`
persists the state solely by writing `JSON.stringify(state)` to the
localStorage key `space_builder_project_<spaceId>` and — provided the
stored projects list is an array whose `findIndex` scan completes
without hitting a `null` entry — updating the `space_builder_projects`
metadata list; every other key is untouched, and the embedded function
has no effect besides the returned store (the `fetch` call in the
source is commented out, so no network request exists in the model).
And for every *nonempty* space id whose project key holds a parseable
blob, `getCanvasState` returns exactly the parse of that blob (the
empty id is falsy and falls through to the mock state). -/
theorem C1_amended_persistence_localStorage :
    ∀ (store : Store) (sid : String) (state : CanvasState)
      (md : Option PartialMeta) (now : String),
      (Store.getItem (saveCanvasState store sid state md now)
        (projectKey sid) = some (JSONstringify (encodeCanvas state))) ∧
      (∀ k, k ≠ projectKey sid → k ≠ projectsListKey →
        Store.getItem (saveCanvasState store sid state md now) k
          = Store.getItem store k) ∧
      (∀ l idx, getProjectsArr store = some l →
        jsFindIndex sid l = some idx →
        Store.getItem (saveCanvasState store sid state md now)
          projectsListKey
          = some (JSONstringify (Json.arr (upsertList l idx sid md now)))) ∧
      (∀ blob parsed, sid ≠ "" →
        Store.getItem store (projectKey sid) = some blob →
        JSONparse blob = some parsed →
        getCanvasState store (some sid) = parsed) := by
  intro store sid state md now
  refine ⟨saveCanvasState_writes_blob store sid state md now, ?_, ?_, ?_⟩
  · intro k hk hk'
    rcases h : getProjectsArr store with _ | l
    · rw [saveCanvasState_eq_of_notArr store sid state md now h,
        Store.getItem_setItem_ne _ _ _ _ hk]
    · rcases hfi : jsFindIndex sid l with _ | idx
      · rw [saveCanvasState_eq_of_nullScan store sid state md now l h hfi,
          Store.getItem_setItem_ne _ _ _ _ hk]
      · rw [saveCanvasState_eq_of_arr store sid state md now l idx h hfi,
          Store.getItem_setItem_ne _ _ _ _ hk',
          Store.getItem_setItem_ne _ _ _ _ hk]
  · intro l idx h hfi
    rw [saveCanvasState_eq_of_arr store sid state md now l idx h hfi,
      Store.getItem_setItem_self]
    rfl
  · intro blob parsed hsid hb hp
    have hbne : (sid != "") = true := bne_iff_ne.mpr hsid
    simp [getCanvasState, hbne, hb, hp]

/-- C1 witness: a concrete save into the empty store and a concrete
read-back of a stored blob under the nonempty id `p`. -/
theorem C1_witness :
    (Store.getItem (saveCanvasState Store.empty "p" ⟨[], []⟩ none "T")
      (projectKey "p")
      = some (JSONstringify (encodeCanvas ⟨[], []⟩))) ∧
    (Store.getItem (saveCanvasState Store.empty "p" ⟨[], []⟩ none "T")
      "unrelated" = none) ∧
    (Store.getItem (saveCanvasState Store.empty "p" ⟨[], []⟩ none "T")
      projectsListKey
      = some (JSONstringify (Json.arr (upsertList [] none "p" none "T")))) ∧
    getCanvasState [(projectKey "p", JSONstringify (Json.num 1))]
      (some "p") = Json.num 1 :=
  ⟨(C1_amended_persistence_localStorage Store.empty "p" ⟨[], []⟩ none
     "T").1,
   (C1_amended_persistence_localStorage Store.empty "p" ⟨[], []⟩ none
     "T").2.1 "unrelated" (by decide) (by decide),
   (C1_amended_persistence_localStorage Store.empty "p" ⟨[], []⟩ none
     "T").2.2.1 [] none rfl rfl,
   (C1_amended_persistence_localStorage
     [(projectKey "p", JSONstringify (Json.num 1))] "p" ⟨[], []⟩ none
     "T").2.2.2 (JSONstringify (Json.num 1)) (Json.num 1) (by decide)
     rfl rfl⟩

/-- On an encoded metadata entry, the `p.id === spaceId` probe is exactly
an id comparison. -/
theorem idMatches_encodeMeta (sid : String) (m : ProjectMetadata) :
    idMatches sid (encodeMeta m) = (m.id == sid) := rfl

/-- `x || y` with a present right-hand side is always present. -/
theorem jsOrJ_isSome (a : Option Json) (y : Json) :
    ∃ z, jsOrJ a (some y) = some z := by
  unfold jsOrJ
  by_cases h : Json.truthyOpt a = true
  · cases a with
    | none => simp [Json.truthyOpt] at h
    | some v => exact ⟨v, by simp [h]⟩
  · exact ⟨y, by simp [h]⟩

/-- The upsert entry for an existing encoded entry when no fresh metadata
is supplied: name, description and creation date of the old entry
retained, only `lastModified` refreshed. -/
theorem saveMetaEntry_keep (m : ProjectMetadata) (sid now : String) :
    saveMetaEntry (some (encodeMeta m)) sid none now
      = encodeMeta ⟨sid, m.name, m.description, m.createdAt, now⟩ := rfl

/-- The upsert entry when no entry exists and no metadata is supplied:
the `Project <id>` default with empty description and fresh dates. -/
theorem saveMetaEntry_fresh (sid now : String) :
    saveMetaEntry none sid none now
      = encodeMeta ⟨sid, "Project " ++ sid, "", now, now⟩ := rfl

/-- For any supplied metadata, the upsert entry for an existing encoded
entry keeps the shape of a metadata record and preserves `createdAt`. -/
theorem saveMetaEntry_shape (m : ProjectMetadata) (sid now : String)
    (md : Option PartialMeta) :
    ∃ nm ds, saveMetaEntry (some (encodeMeta m)) sid md now
      = Json.obj [("id", .str sid), ("name", nm), ("description", ds),
          ("lastModified", .str now), ("createdAt", .str m.createdAt)] := by
  obtain ⟨nm, hnm⟩ := jsOrJ_isSome ((md.bind (·.name)).map .str)
    (Json.str m.name)
  obtain ⟨ds, hds⟩ := jsOrJ_isSome ((md.bind (·.description)).map .str)
    (Json.str m.description)
  refine ⟨nm, ds, ?_⟩
  unfold saveMetaEntry
  dsimp only
  have h1 : (encodeMeta m).jget "name" = some (Json.str m.name) := rfl
  have h2 : (encodeMeta m).jget "description"
      = some (Json.str m.description) := rfl
  have h3 : (encodeMeta m).jget "createdAt"
      = some (Json.str m.createdAt) := rfl
  rw [h1, h2, h3, hnm, hds]
  rfl

/-- On an encoded typed list (no `null` entries), the throwing
`findIndex` completes and agrees with the pure index search. -/
theorem jsFindIndex_encodeMeta (sid : String) (tl : List ProjectMetadata) :
    jsFindIndex sid (tl.map encodeMeta)
      = some (tl.findIdx? (fun p => p.id == sid)) := by
  induction tl with
  | nil => rfl
  | cons m rest ih =>
    have hprobe : idProbe sid (encodeMeta m) = some (m.id == sid) := rfl
    rw [List.map_cons, List.findIdx?_cons, List.findIdx?_succ]
    unfold jsFindIndex
    rw [hprobe]
    by_cases h : (m.id == sid) = true
    · simp [h]
    · rw [eq_false_of_ne_true h, if_neg (by simp [h])]
      rw [ih]
      rfl

/-- The upsert list over an encoded typed list, existing-entry case. -/
theorem upsertList_existing (tl : List ProjectMetadata) (sid now : String)
    (md : Option PartialMeta) (i : Nat) (m : ProjectMetadata)
    (hget : tl.get? i = some m) :
    upsertList (tl.map encodeMeta) (some i) sid md now
      = (tl.map encodeMeta).set i
          (saveMetaEntry (some (encodeMeta m)) sid md now) := by
  unfold upsertList
  have hget' : (tl.map encodeMeta).get? i = some (encodeMeta m) := by
    rw [List.get?_map, hget]; rfl
  simp only [Option.some_bind, hget']

/-- The upsert list, fresh-entry case. -/
theorem upsertList_fresh (l : List Json) (sid now : String)
    (md : Option PartialMeta) :
    upsertList l none sid md now
      = l ++ [saveMetaEntry none sid md now] := rfl

/-- C9: `saveCanvasState` upserts exactly one metadata entry: an entry
with the given space id is replaced in place with its `createdAt`
preserved, and with its name and description retained when no new
metadata is supplied; otherwise a single new entry is appended; `set`
and append leave every other entry of the projects list unchanged. -/
theorem C9_save_upserts_single_entry :
    ∀ (store : Store) (sid : String) (state : CanvasState) (now : String)
      (tl : List ProjectMetadata),
      getProjectsArr store = some (tl.map encodeMeta) →
      ((∀ i m, tl.findIdx? (fun p => p.id == sid) = some i →
        tl.get? i = some m →
        Store.getItem (saveCanvasState store sid state none now)
          projectsListKey
          = some (JSONstringify (Json.arr ((tl.map encodeMeta).set i
              (encodeMeta ⟨sid, m.name, m.description, m.createdAt,
                now⟩))))) ∧
      (∀ (md : Option PartialMeta) i m,
        tl.findIdx? (fun p => p.id == sid) = some i →
        tl.get? i = some m →
        ∃ nm ds,
          Store.getItem (saveCanvasState store sid state md now)
            projectsListKey
            = some (JSONstringify (Json.arr ((tl.map encodeMeta).set i
                (Json.obj [("id", .str sid), ("name", nm),
                  ("description", ds), ("lastModified", .str now),
                  ("createdAt", .str m.createdAt)]))))) ∧
      (∀ md : Option PartialMeta,
        tl.findIdx? (fun p => p.id == sid) = none →
        ∃ e, Store.getItem (saveCanvasState store sid state md now)
          projectsListKey
          = some (JSONstringify (Json.arr (tl.map encodeMeta ++ [e]))) ∧
          (md = none →
            e = encodeMeta ⟨sid, "Project " ++ sid, "", now, now⟩))) := by
  intro store sid state now tl harr
  refine ⟨?_, ?_, ?_⟩
  · intro i m hidx hget
    have hfi : jsFindIndex sid (tl.map encodeMeta) = some (some i) := by
      rw [jsFindIndex_encodeMeta, hidx]
    rw [saveCanvasState_eq_of_arr store sid state none now _ (some i)
        harr hfi,
      Store.getItem_setItem_self,
      upsertList_existing tl sid now none i m hget,
      saveMetaEntry_keep]
    rfl
  · intro md i m hidx hget
    have hfi : jsFindIndex sid (tl.map encodeMeta) = some (some i) := by
      rw [jsFindIndex_encodeMeta, hidx]
    obtain ⟨nm, ds, hshape⟩ := saveMetaEntry_shape m sid now md
    refine ⟨nm, ds, ?_⟩
    rw [saveCanvasState_eq_of_arr store sid state md now _ (some i)
        harr hfi,
      Store.getItem_setItem_self,
      upsertList_existing tl sid now md i m hget, hshape]
    rfl
  · intro md hidx
    have hfi : jsFindIndex sid (tl.map encodeMeta) = some none := by
      rw [jsFindIndex_encodeMeta, hidx]
    refine ⟨saveMetaEntry none sid md now, ?_, ?_⟩
    · rw [saveCanvasState_eq_of_arr store sid state md now _ none
          harr hfi,
        Store.getItem_setItem_self,
        upsertList_fresh (tl.map encodeMeta) sid now md]
      rfl
    · intro h
      subst h
      exact saveMetaEntry_fresh sid now

/-- C9 witness: upserting into a concrete one-entry list — the existing
entry is replaced keeping its creation date, and a save under a fresh id
appends the default entry. -/
theorem C9_witness :
    (Store.getItem (saveCanvasState
        [(projectsListKey, JSONstringify (Json.arr
          [encodeMeta ⟨"p", "Name", "Desc", "T0", "T0"⟩]))]
        "p" ⟨[], []⟩ none "T1") projectsListKey
      = some (JSONstringify (Json.arr
          [encodeMeta ⟨"p", "Name", "Desc", "T0", "T1"⟩]))) ∧
    (∃ e, Store.getItem (saveCanvasState
        [(projectsListKey, JSONstringify (Json.arr
          [encodeMeta ⟨"p", "Name", "Desc", "T0", "T0"⟩]))]
        "q" ⟨[], []⟩ none "T1") projectsListKey
      = some (JSONstringify (Json.arr
          [encodeMeta ⟨"p", "Name", "Desc", "T0", "T0"⟩, e]))) := by
  constructor
  · exact (C9_save_upserts_single_entry
      [(projectsListKey, JSONstringify (Json.arr
        [encodeMeta ⟨"p", "Name", "Desc", "T0", "T0"⟩]))] "p" ⟨[], []⟩ "T1"
      [⟨"p", "Name", "Desc", "T0", "T0"⟩] (by rfl)).1 0
      ⟨"p", "Name", "Desc", "T0", "T0"⟩ rfl rfl
  · obtain ⟨e, he, _⟩ := (C9_save_upserts_single_entry
      [(projectsListKey, JSONstringify (Json.arr
        [encodeMeta ⟨"p", "Name", "Desc", "T0", "T0"⟩]))] "q" ⟨[], []⟩ "T1"
      [⟨"p", "Name", "Desc", "T0", "T0"⟩] (by rfl)).2.2 none rfl
    exact ⟨e, he⟩

/-- Removing a project blob never disturbs the projects list. -/
theorem getProjectsArr_removeItem_projectKey (store : Store) (x : String) :
    getProjectsArr (Store.removeItem store (projectKey x))
      = getProjectsArr store := by
  unfold getProjectsArr getProjectsList
  rw [Store.getItem_removeItem_ne _ _ _
    (fun e => projectKey_ne_listKey x e.symm)]

/-- Evaluating `deleteProject` when the stored projects list is an
array: the blob is removed, the filtered list written, `true` returned. -/
theorem deleteProject_eq_of_arr (store : Store) (pid : String)
    (l : List Json) (harr : getProjectsArr store = some l) :
    deleteProject store pid =
      (Store.setItem (Store.removeItem store (projectKey pid))
        projectsListKey
        (Stored.jval (.arr (l.filter (fun p => !(idMatches pid p))))),
       true) := by
  have h1 : getProjectsArr (Store.removeItem store (projectKey pid))
      = some l := by
    rw [getProjectsArr_removeItem_projectKey]; exact harr
  unfold deleteProject
  simp only [h1]
  rfl

/-- C10: when `deleteProject(projectId)` returns `true` the projects
list contains no entry with that id, the project's localStorage key is
removed, and the stored data and metadata of every other project are
unchanged; deleting an id that is not in the list also returns `true`
and leaves the list's entries unchanged. -/
theorem C10_delete_removes_exactly_one_project :
    ∀ (store : Store) (pid : String) (tl : List ProjectMetadata),
      getProjectsArr store = some (tl.map encodeMeta) →
      (deleteProject store pid).2 = true ∧
      Store.getItem (deleteProject store pid).1 (projectKey pid) = none ∧
      Store.getItem (deleteProject store pid).1 projectsListKey
        = some (JSONstringify (Json.arr
            ((tl.filter (fun m => !(m.id == pid))).map encodeMeta))) ∧
      (∀ m ∈ tl.filter (fun m => !(m.id == pid)), m.id ≠ pid) ∧
      (∀ k, k ≠ projectKey pid → k ≠ projectsListKey →
        Store.getItem (deleteProject store pid).1 k
          = Store.getItem store k) ∧
      ((∀ m ∈ tl, m.id ≠ pid) →
        tl.filter (fun m => !(m.id == pid)) = tl) := by
  intro store pid tl harr
  have hcomm : (tl.map encodeMeta).filter (fun p => !(idMatches pid p))
      = (tl.filter (fun m => !(m.id == pid))).map encodeMeta := by
    have hp : ((fun p => !(idMatches pid p)) ∘ encodeMeta)
        = (fun m : ProjectMetadata => !(m.id == pid)) :=
      funext (fun m => rfl)
    rw [List.map_filter, hp]
  rw [deleteProject_eq_of_arr store pid _ harr]
  refine ⟨rfl, ?_, ?_, ?_, ?_, ?_⟩
  · dsimp only
    rw [Store.getItem_setItem_ne _ _ _ _ (projectKey_ne_listKey pid),
      Store.getItem_removeItem_self]
  · dsimp only
    rw [Store.getItem_setItem_self, hcomm]
    rfl
  · intro m hm
    have := (List.mem_filter.mp hm).2
    simpa using this
  · intro k hk hk'
    dsimp only
    rw [Store.getItem_setItem_ne _ _ _ _ hk',
      Store.getItem_removeItem_ne _ _ _ hk]
  · intro h
    refine List.filter_eq_self.mpr ?_
    intro m hm
    simpa using h m hm

/-- C10 witness: deleting project `p` from a concrete store holding two
metadata entries and `p`'s blob — the blob disappears, only `q`'s entry
survives, and deleting the absent id `z` leaves the entries unchanged. -/
theorem C10_witness :
    (deleteProject [(projectsListKey, JSONstringify (Json.arr
        [encodeMeta ⟨"p", "N", "D", "T0", "T0"⟩,
         encodeMeta ⟨"q", "M", "E", "T0", "T0"⟩])),
      (projectKey "p", JSONstringify (Json.num 1))] "p").2 = true ∧
    Store.getItem (deleteProject [(projectsListKey, JSONstringify (Json.arr
        [encodeMeta ⟨"p", "N", "D", "T0", "T0"⟩,
         encodeMeta ⟨"q", "M", "E", "T0", "T0"⟩])),
      (projectKey "p", JSONstringify (Json.num 1))] "p").1
      (projectKey "p") = none ∧
    Store.getItem (deleteProject [(projectsListKey, JSONstringify (Json.arr
        [encodeMeta ⟨"p", "N", "D", "T0", "T0"⟩,
         encodeMeta ⟨"q", "M", "E", "T0", "T0"⟩])),
      (projectKey "p", JSONstringify (Json.num 1))] "p").1
      projectsListKey
      = some (JSONstringify (Json.arr
          [encodeMeta ⟨"q", "M", "E", "T0", "T0"⟩])) ∧
    ([⟨"q", "M", "E", "T0", "T0"⟩] : List ProjectMetadata).filter
      (fun m => !(m.id == "z"))
      = [⟨"q", "M", "E", "T0", "T0"⟩] := by
  have h := C10_delete_removes_exactly_one_project
    [(projectsListKey, JSONstringify (Json.arr
        [encodeMeta ⟨"p", "N", "D", "T0", "T0"⟩,
         encodeMeta ⟨"q", "M", "E", "T0", "T0"⟩])),
      (projectKey "p", JSONstringify (Json.num 1))] "p"
    [⟨"p", "N", "D", "T0", "T0"⟩, ⟨"q", "M", "E", "T0", "T0"⟩] (by rfl)
  have h2 := C10_delete_removes_exactly_one_project
    [(projectsListKey, JSONstringify (Json.arr
        [encodeMeta ⟨"q", "M", "E", "T0", "T0"⟩]))] "z"
    [⟨"q", "M", "E", "T0", "T0"⟩] (by rfl)
  exact ⟨h.1, h.2.1, h.2.2.1, h2.2.2.2.2.2 (by decide)⟩

/-- The imported metadata entry built from a well-formed exported entry:
the name survives the template coercion with the `(Imported)` suffix and
the description survives `|| ''`. -/
theorem importedMeta_encodeMeta (m : ProjectMetadata) (newId now : String) :
    importedMeta (encodeMeta m) newId now
      = encodeMeta ⟨newId, m.name ++ " (Imported)", m.description, now,
          now⟩ := by
  unfold importedMeta
  have h1 : (encodeMeta m).jget "name" = some (Json.str m.name) := rfl
  have h2 : (encodeMeta m).jget "description"
      = some (Json.str m.description) := rfl
  rw [h1, h2]
  have hname : jsTemplateOpt (some (Json.str m.name)) = m.name := by
    simp [jsTemplateOpt, jsTemplate]
  rw [hname]
  by_cases hd : m.description = ""
  · rw [hd]
    rfl
  · have ht : (Json.str m.description).truthy = true := by
      simp [Json.truthy, hd]
    dsimp only
    rw [ht]
    rfl

/-- C4: export/import round trip.  A project whose stored blob is the
encoding of canvas state `S` and whose metadata entry is `m` exports to
the file `{metadata: m, canvasState: S}`; importing that file into any
store whose projects list is an array creates the fresh id
`imported-<ts>` whose stored canvas state equals `S`, appends the
`(Imported)`-suffixed metadata entry, and leaves every other key — in
particular every previously stored project — unchanged. -/
theorem C4_export_import_roundtrip :
    ∀ (store1 : Store) (pid : String) (S : CanvasState)
      (tl1 : List ProjectMetadata) (m : ProjectMetadata),
      Store.getItem store1 (projectKey pid)
        = some (JSONstringify (encodeCanvas S)) →
      getProjectsArr store1 = some (tl1.map encodeMeta) →
      tl1.find? (fun p => p.id == pid) = some m →
      exportProject store1 pid
        = some (JSONstringify (Json.obj
            [("metadata", encodeMeta m),
             ("canvasState", encodeCanvas S)])) ∧
      (∀ (store2 : Store) (tl2 : List ProjectMetadata) (ts : Nat)
         (now : String),
        getProjectsArr store2 = some (tl2.map encodeMeta) →
        (importProject store2 (JSONstringify (Json.obj
            [("metadata", encodeMeta m),
             ("canvasState", encodeCanvas S)])) ts now).1
          = some ("imported-" ++ toString ts) ∧
        Store.getItem (importProject store2 (JSONstringify (Json.obj
            [("metadata", encodeMeta m),
             ("canvasState", encodeCanvas S)])) ts now).2
          (projectKey ("imported-" ++ toString ts))
          = some (JSONstringify (encodeCanvas S)) ∧
        Store.getItem (importProject store2 (JSONstringify (Json.obj
            [("metadata", encodeMeta m),
             ("canvasState", encodeCanvas S)])) ts now).2
          projectsListKey
          = some (JSONstringify (Json.arr (tl2.map encodeMeta ++
              [encodeMeta ⟨"imported-" ++ toString ts,
                m.name ++ " (Imported)", m.description, now, now⟩]))) ∧
        (∀ k, k ≠ projectKey ("imported-" ++ toString ts) →
          k ≠ projectsListKey →
          Store.getItem (importProject store2 (JSONstringify (Json.obj
              [("metadata", encodeMeta m),
               ("canvasState", encodeCanvas S)])) ts now).2 k
            = Store.getItem store2 k)) := by
  intro store1 pid S tl1 m hblob harr1 hfound
  have hfind : (tl1.map encodeMeta).find? (idMatches pid)
      = some (encodeMeta m) := by
    have hp : (idMatches pid ∘ encodeMeta)
        = (fun p : ProjectMetadata => p.id == pid) := funext (fun p => rfl)
    rw [List.find?_map, hp, hfound]
    rfl
  constructor
  · unfold exportProject
    rw [hblob]
    simp only [harr1, hfind, JSONparse, JSONstringify]
    rfl
  · intro store2 tl2 ts now harr2
    have hj1 : (Json.obj [("metadata", encodeMeta m),
        ("canvasState", encodeCanvas S)]).jget "canvasState"
        = some (encodeCanvas S) := rfl
    have hj2 : (Json.obj [("metadata", encodeMeta m),
        ("canvasState", encodeCanvas S)]).jget "metadata"
        = some (encodeMeta m) := rfl
    have htr : (encodeCanvas S).truthy = true := rfl
    have hmt : (encodeMeta m).truthy = true := rfl
    have hsucc := importProject_success store2 _ (encodeCanvas S)
      (encodeMeta m) ts now (tl2.map encodeMeta) harr2 hj1 htr hj2 hmt
    rw [hsucc]
    refine ⟨rfl, ?_, ?_, ?_⟩
    · dsimp only
      rw [Store.getItem_setItem_ne _ _ _ _
          (projectKey_ne_listKey ("imported-" ++ toString ts)),
        Store.getItem_setItem_self]
      rfl
    · dsimp only
      rw [Store.getItem_setItem_self, importedMeta_encodeMeta]
      rfl
    · intro k hk hk'
      dsimp only
      rw [Store.getItem_setItem_ne _ _ _ _ hk',
        Store.getItem_setItem_ne _ _ _ _ hk]

/-- C4 witness: a concrete round trip — project `p` with an empty canvas
and entry `(p, N, D)` exports to the two-field file, and importing that
file into the empty store creates `imported-7` with the same canvas blob
and the `N (Imported)` entry. -/
theorem C4_witness :
    exportProject [(projectKey "p", JSONstringify (encodeCanvas ⟨[], []⟩)),
        (projectsListKey, JSONstringify (Json.arr
          [encodeMeta ⟨"p", "N", "D", "T0", "T0"⟩]))] "p"
      = some (JSONstringify (Json.obj
          [("metadata", encodeMeta ⟨"p", "N", "D", "T0", "T0"⟩),
           ("canvasState", encodeCanvas ⟨[], []⟩)])) ∧
    Store.getItem (importProject Store.empty (JSONstringify (Json.obj
        [("metadata", encodeMeta ⟨"p", "N", "D", "T0", "T0"⟩),
         ("canvasState", encodeCanvas ⟨[], []⟩)])) 7 "T2").2
      (projectKey "imported-7")
      = some (JSONstringify (encodeCanvas ⟨[], []⟩)) ∧
    Store.getItem (importProject Store.empty (JSONstringify (Json.obj
        [("metadata", encodeMeta ⟨"p", "N", "D", "T0", "T0"⟩),
         ("canvasState", encodeCanvas ⟨[], []⟩)])) 7 "T2").2
      projectsListKey
      = some (JSONstringify (Json.arr
          [encodeMeta ⟨"imported-7", "N (Imported)", "D", "T2", "T2"⟩])) := by
  have h := C4_export_import_roundtrip
    [(projectKey "p", JSONstringify (encodeCanvas ⟨[], []⟩)),
     (projectsListKey, JSONstringify (Json.arr
       [encodeMeta ⟨"p", "N", "D", "T0", "T0"⟩]))] "p" ⟨[], []⟩
    [⟨"p", "N", "D", "T0", "T0"⟩] ⟨"p", "N", "D", "T0", "T0"⟩
    (by rfl) (by rfl) (by rfl)
  have h2 := h.2 Store.empty [] 7 "T2" (by rfl)
  exact ⟨h.1, h2.2.1, h2.2.2.1⟩

/-- C7 counterexample: the claimed three-feature duplication fails
concretely at the process-builder and teams features — they define no
node/group-change operation at all (`ProcessBuilderPage` holds only two
sidebar booleans over a placeholder canvas, `TeamsCanvas` is a
placeholder `div`), so no operation of either feature can agree with the
space-builder's `handleGroupChange`. -/
theorem C7_counterexample :
    (¬ ∃ op ∈ processBuilderNodeOps,
      ∀ (n : FlowNode) (gid : String), op n gid = sbGroupChangeUpdate n gid) ∧
    (¬ ∃ op ∈ teamsNodeOps,
      ∀ (n : FlowNode) (gid : String), op n gid = sbGroupChangeUpdate n gid) := by
  constructor
  · rintro ⟨op, hop, -⟩
    simp [processBuilderNodeOps] at hop
  · rintro ⟨op, hop, -⟩
    simp [teamsNodeOps] at hop

/-- C7 (amended): the parent/child grouping and containment logic is
duplicated equivalently across the two space-builder component copies
(`src/app/page.tsx` and
`src/app/space-builder/components/space-builder.tsx`): for every
selected node and chosen group id both produce the same updated node —
with parent link, `'parent'` extent, `data.groupId`/`data.parentId` and
the (50, 50) position reset when joining a group, and parent-link
removal with position kept when the id is `"none"`.  The process-builder
and teams features define no such operation (see the counterexample). -/
theorem C7_amended_groupchange_equivalence :
    (∀ (n : FlowNode) (gid : String),
      pageGroupChangeUpdate n gid = sbGroupChangeUpdate n gid) ∧
    (∀ (n : FlowNode) (gid : String), gid ≠ "none" →
      (pageGroupChangeUpdate n gid).parentNode = some gid ∧
      (pageGroupChangeUpdate n gid).extent = some "parent" ∧
      (pageGroupChangeUpdate n gid).data.groupId = some gid ∧
      (pageGroupChangeUpdate n gid).data.parentId = some gid ∧
      (pageGroupChangeUpdate n gid).position = ⟨50, 50⟩) ∧
    (∀ n : FlowNode,
      (pageGroupChangeUpdate n "none").parentNode = none ∧
      (pageGroupChangeUpdate n "none").extent = none ∧
      (pageGroupChangeUpdate n "none").data.groupId = none ∧
      (pageGroupChangeUpdate n "none").data.parentId = none ∧
      (pageGroupChangeUpdate n "none").position = n.position) := by
  refine ⟨fun n gid => rfl, ?_, ?_⟩
  · intro n gid h
    have hb : (gid == "none") = false := beq_eq_false_iff_ne.mpr h
    simp [pageGroupChangeUpdate, hb]
  · intro n
    simp [pageGroupChangeUpdate]

/-- C7 witness: the two copies agree at a concrete node, and joining the
concrete group `office-area` sets the parent link and resets the
position while `"none"` clears it. -/
theorem C7_witness :
    pageGroupChangeUpdate
      { id := "n1", position := ⟨3, 4⟩, data := { label := "x" } }
      "office-area"
      = sbGroupChangeUpdate
        { id := "n1", position := ⟨3, 4⟩, data := { label := "x" } }
        "office-area" ∧
    (pageGroupChangeUpdate
      { id := "n1", position := ⟨3, 4⟩, data := { label := "x" } }
      "office-area").parentNode = some "office-area" ∧
    (pageGroupChangeUpdate
      { id := "n1", position := ⟨3, 4⟩, data := { label := "x" } }
      "office-area").position = ⟨50, 50⟩ ∧
    (pageGroupChangeUpdate
      { id := "n1", position := ⟨3, 4⟩, data := { label := "x" } }
      "none").parentNode = none :=
  ⟨C7_amended_groupchange_equivalence.1 _ "office-area",
   (C7_amended_groupchange_equivalence.2.1 _ "office-area" (by decide)).1,
   (C7_amended_groupchange_equivalence.2.1 _ "office-area"
     (by decide)).2.2.2.2,
   (C7_amended_groupchange_equivalence.2.2 _).1⟩

/-- C5 counterexample: the invariant is not preserved by the raw UI
operations.  Two `addNode` calls landing on the same `Date.now()`
millisecond produce two nodes with the identical id `asset-5`, and a
`handleGroupChange` to an id that names no node (the operation checks
nothing) leaves the selected node with a dangling parent reference; both
states are reachable from the mock initial state. -/
theorem C5_counterexample :
    (Reachable (applyOp (applyOp mockCanvasState
        (.addNode "desk" .asset ⟨0, 0⟩ 5))
        (.addNode "desk" .asset ⟨0, 0⟩ 5)) ∧
     ¬ NodesOK (applyOp (applyOp mockCanvasState
        (.addNode "desk" .asset ⟨0, 0⟩ 5))
        (.addNode "desk" .asset ⟨0, 0⟩ 5))) ∧
    (Reachable (applyOp mockCanvasState (.groupChange
        { id := "sensor-1", type := some "asset", position := ⟨400, 500⟩,
          data := { label := "Motion Sensor", typeId := some "sensor",
                    groupId := none, type := some "asset" } }
        "ghost-group")) ∧
     ¬ NodesOK (applyOp mockCanvasState (.groupChange
        { id := "sensor-1", type := some "asset", position := ⟨400, 500⟩,
          data := { label := "Motion Sensor", typeId := some "sensor",
                    groupId := none, type := some "asset" } }
        "ghost-group"))) :=
  ⟨⟨.step _ _ (.step _ _ .init), by decide⟩,
   ⟨.step _ _ .init, by decide⟩⟩

/-- `updateNode` never changes any node id. -/
theorem updateNodeIn_ids (nodes : List FlowNode) (u : FlowNode) :
    (updateNodeIn nodes u).map (·.id) = nodes.map (·.id) := by
  unfold updateNodeIn
  rw [List.map_map]
  apply List.map_congr_left
  intro n _
  by_cases h : (n.id == u.id) = true <;> simp [Function.comp, h]

/-- A parent reference valid for a set of ids stays valid when an id is
appended. -/
theorem refOkB_mono (ids : List String) (x : String) (o : Option String)
    (h : refOkB ids o = true) : refOkB (ids ++ [x]) o = true := by
  cases o with
  | none => rfl
  | some p =>
    simp [refOkB] at h ⊢
    exact Or.inl h

/-- `updateNode` preserves the node invariant when the update's parent
references point into the state. -/
theorem NodesOK_updateNodeIn (s : CanvasState) (u : FlowNode)
    (hs : NodesOK s)
    (h1 : refOkB (nodeIds s) u.parentNode = true)
    (h2 : refOkB (nodeIds s) u.data.groupId = true) :
    NodesOK { s with nodes := updateNodeIn s.nodes u } := by
  obtain ⟨hnd, href⟩ := hs
  have hids : nodeIds { s with nodes := updateNodeIn s.nodes u }
      = nodeIds s := updateNodeIn_ids s.nodes u
  constructor
  · rw [hids]; exact hnd
  · intro x hx
    rw [hids]
    unfold updateNodeIn at hx
    obtain ⟨n, hn, rfl⟩ := List.mem_map.mp hx
    by_cases h : (n.id == u.id) = true
    · simp only [h, if_true]
      exact ⟨h1, h2⟩
    · simp only [h, if_false]
      exact href n hn

/-- Each guarded UI operation preserves the node invariant. -/
theorem NodesOK_applyOp (s : CanvasState) (op : CanvasOp)
    (hs : NodesOK s) (hg : opGuard s op) : NodesOK (applyOp s op) := by
  cases op with
  | addNode tid k pos ts =>
    obtain ⟨hnd, href⟩ := hs
    have hfresh : (k.toStr ++ "-" ++ toString ts) ∉ nodeIds s := hg
    have hids : nodeIds (applyOp s (CanvasOp.addNode tid k pos ts))
        = nodeIds s ++ [k.toStr ++ "-" ++ toString ts] := by
      show (s.nodes ++ [mkNewNode tid k pos ts]).map (·.id) = _
      rw [List.map_append]
      rfl
    constructor
    · rw [hids, List.nodup_append]
      refine ⟨hnd, List.nodup_singleton _, ?_⟩
      intro a ha hax
      have : a = k.toStr ++ "-" ++ toString ts := by simpa using hax
      exact hfresh (this ▸ ha)
    · intro x hx
      rw [hids]
      rcases List.mem_append.mp hx with hmem | hnew
      · obtain ⟨ho1, ho2⟩ := href x hmem
        exact ⟨refOkB_mono _ _ _ ho1, refOkB_mono _ _ _ ho2⟩
      · have : x = mkNewNode tid k pos ts := by simpa using hnew
        subst this
        exact ⟨rfl, rfl⟩
  | updateNode u =>
    exact NodesOK_updateNodeIn s u hs hg.1 hg.2
  | groupChange sel gid =>
    have hcase : ∀ o, (o = if (gid == "none") then none else some gid) →
        refOkB (nodeIds s) o = true := by
      intro o ho
      by_cases h : (gid == "none") = true
      · rw [ho, if_pos h]; rfl
      · rw [ho, if_neg h]
        have hgid : gid ∈ nodeIds s := by
          rcases hg with he | hm
          · exact absurd (beq_iff_eq.mpr he) (by simp [h])
          · exact hm
        simpa [refOkB] using hgid
    exact NodesOK_updateNodeIn s (pageGroupChangeUpdate sel gid) hs
      (hcase _ rfl) (hcase _ rfl)
  | connect p =>
    obtain ⟨hnd, href⟩ := hs
    exact ⟨hnd, href⟩

/-- C5 (amended): node ids are unique strings and every `parentNode` /
`data.groupId` reference names an existing node, in every canvas state
reachable from the mock initial state — or from a loaded state that
itself satisfies the invariant — by the UI operations, provided each
`addNode` lands on a timestamp whose generated id is not already taken
and `updateNode`/`handleGroupChange` only install parent references that
are absent/`"none"` or the id of an existing node (the ids the
right-sidebar group dropdown supplies).  Without these provisos the
operations themselves check nothing and the invariant fails (see the
counterexample). -/
theorem C5_amended_invariant_under_guards :
    ∀ s, GReachable s → NodesOK s := by
  intro s h
  induction h with
  | init => decide
  | loaded s hs => exact hs
  | step s op hr hg ih => exact NodesOK_applyOp s op ih hg

/-- C5 witness: the invariant holds concretely after a guarded
`addNode` on the mock state. -/
theorem C5_witness :
    NodesOK (applyOp mockCanvasState (.addNode "desk" .asset ⟨0, 0⟩ 5)) :=
  C5_amended_invariant_under_guards _
    (GReachable.step _ _ GReachable.init
      (show (NodeKind.asset.toStr ++ "-" ++ toString 5)
          ∉ nodeIds mockCanvasState by decide))

/-- Under the machine invariant, the effect cleanup always empties the
timer list. -/
theorem DebInv_cleared (s : DebState) (hs : DebInv s) :
    (match s.lastId with
     | some i => s.timers.filter (fun tm => !(tm.1 == i))
     | none => s.timers) = [] := by
  rcases hs with h | ⟨i, d, hts, hl⟩
  · rw [h]
    cases s.lastId <;> simp
  · rw [hts, hl]
    simp

/-- A change event leaves exactly the newly scheduled timer (or none at
all under the empty-canvas guard). -/
theorem debStep_change_timers (D : Nat) (g : Bool) (s : DebState)
    (hs : DebInv s) (t : Nat) (ec : Bool) :
    (debStep D g s (.change t ec)).timers
      = if g && ec then [] else [(s.nextId, t + D)] := by
  simp only [debStep]
  rw [DebInv_cleared s hs]
  by_cases h : (g && ec) = true <;> simp [h]

/-- A change event never records a save. -/
theorem debStep_change_saves (D : Nat) (g : Bool) (s : DebState)
    (t : Nat) (ec : Bool) :
    (debStep D g s (.change t ec)).saves = s.saves := by
  simp only [debStep]
  by_cases h : (g && ec) = true <;> simp [h]

/-- One machine step preserves the structural invariant. -/
theorem DebInv_step (D : Nat) (g : Bool) (s : DebState) (e : DebEvent)
    (hs : DebInv s) : DebInv (debStep D g s e) := by
  cases e with
  | change t ec =>
    by_cases h : (g && ec) = true
    · left
      rw [debStep_change_timers D g s hs t ec, if_pos h]
    · right
      exact ⟨s.nextId, t + D,
        by rw [debStep_change_timers D g s hs t ec, if_neg h], by
          simp only [debStep]
          rw [if_neg h]⟩
  | fire tf =>
    rcases hs with h | ⟨i, d, hts, hl⟩
    · left
      simp only [debStep]
      rw [h]
      rfl
    · by_cases hd : (d ≤ tf)
      · left
        simp only [debStep]
        rw [hts]
        simp [hd]
      · right
        refine ⟨i, d, ?_, hl⟩
        simp only [debStep]
        rw [hts]
        simp [hd]

/-- The machine keeps its invariant along every run. -/
theorem debRun_inv (D : Nat) (g : Bool) (evs : List DebEvent) :
    DebInv (debRun D g evs) := by
  suffices h : ∀ s, DebInv s → DebInv (evs.foldl (debStep D g) s) by
    exact h {} (Or.inl rfl)
  induction evs with
  | nil => exact fun s hs => hs
  | cons e rest ih => exact fun s hs => ih _ (DebInv_step D g s e hs)

/-- Running over a timeline extended by one event is one more step. -/
theorem debRun_append_single (D : Nat) (g : Bool) (evs : List DebEvent)
    (e : DebEvent) :
    debRun D g (evs ++ [e]) = debStep D g (debRun D g evs) e := by
  unfold debRun
  rw [List.foldl_append]
  rfl

/-- Change times distribute over timeline concatenation. -/
theorem changeTimes_append (evs1 evs2 : List DebEvent) :
    changeTimes (evs1 ++ evs2) = changeTimes evs1 ++ changeTimes evs2 := by
  unfold changeTimes
  rw [List.filterMap_append]

/-- An ordered timeline stays ordered when its last event is dropped,
and every earlier event is no later than the dropped one. -/
theorem Ordered.of_append (evs : List DebEvent) (e : DebEvent)
    (h : Ordered (evs ++ [e])) :
    Ordered evs ∧ ∀ x ∈ evs, DebEvent.time x ≤ DebEvent.time e := by
  unfold Ordered at h ⊢
  rw [List.map_append, List.chain'_iff_pairwise, List.pairwise_append] at h
  rw [List.chain'_iff_pairwise]
  obtain ⟨h1, _, h3⟩ := h
  refine ⟨h1, fun x hx => ?_⟩
  exact h3 (DebEvent.time x) (List.mem_map_of_mem _ hx)
    (DebEvent.time e) (by simp)

/-- A change time of a timeline is the time of one of its events. -/
theorem changeTimes_mem_time (evs : List DebEvent) (t : Nat)
    (h : t ∈ changeTimes evs) :
    ∃ x ∈ evs, DebEvent.time x = t := by
  unfold changeTimes at h
  obtain ⟨x, hx, hfx⟩ := List.mem_filterMap.mp h
  refine ⟨x, hx, ?_⟩
  cases x with
  | change t' ec => simp at hfx; simp [DebEvent.time, hfx]
  | fire t' => simp at hfx

/-- Along any ordered timeline: every live timer belongs to the latest
change (deadline = its time + delay), and every recorded save belongs to
a change whose debounce window contained no other change and was closed
out by a fire no earlier than the deadline. -/
theorem debRun_saves_sound (D : Nat) (g : Bool) :
    ∀ evs : List DebEvent, Ordered evs →
      (∀ tm ∈ (debRun D g evs).timers,
        ∃ t, t ∈ changeTimes evs ∧ tm.2 = t + D ∧
          ∀ t' ∈ changeTimes evs, t' ≤ t) ∧
      (∀ d ∈ (debRun D g evs).saves,
        (∃ t, t ∈ changeTimes evs ∧ d = t + D ∧ Quiet evs t D) ∧
        ∃ tf, (DebEvent.fire tf) ∈ evs ∧ d ≤ tf) := by
  intro evs
  induction evs using List.reverseRecOn with
  | nil =>
    intro _
    constructor <;> intro x hx <;> simp [debRun] at hx
  | append_singleton evs e ih =>
    intro hord
    obtain ⟨hord', hbound⟩ := Ordered.of_append evs e hord
    obtain ⟨ihT, ihS⟩ := ih hord'
    rw [debRun_append_single]
    cases e with
    | change t ec =>
      have hct : changeTimes (evs ++ [DebEvent.change t ec])
          = changeTimes evs ++ [t] := by
        rw [changeTimes_append]; rfl
      constructor
      · intro tm htm
        rw [debStep_change_timers D g _ (debRun_inv D g evs) t ec] at htm
        by_cases h : (g && ec) = true
        · rw [if_pos h] at htm
          simp at htm
        · rw [if_neg h] at htm
          have : tm = ((debRun D g evs).nextId, t + D) := by simpa using htm
          subst this
          refine ⟨t, by rw [hct]; simp, rfl, ?_⟩
          intro t' ht'
          rw [hct] at ht'
          rcases List.mem_append.mp ht' with hold | hnewt
          · obtain ⟨x, hx, hxt⟩ := changeTimes_mem_time evs t' hold
            have := hbound x hx
            rw [hxt] at this
            exact this
          · simp at hnewt
            exact le_of_eq hnewt
      · intro d hd
        rw [debStep_change_saves] at hd
        obtain ⟨⟨t0, ht0, hdt0, hq⟩, ⟨tf, htf, hdtf⟩⟩ := ihS d hd
        have htft : tf ≤ t := hbound (DebEvent.fire tf) htf
        constructor
        · refine ⟨t0, by rw [hct]; exact List.mem_append.mpr (Or.inl ht0),
            hdt0, ?_⟩
          intro t' ht'
          rw [hct] at ht'
          rcases List.mem_append.mp ht' with hold | hnewt
          · exact hq t' hold
          · simp at hnewt
            subst hnewt
            rintro ⟨-, hlt⟩
            have : t0 + D ≤ t' := by
              calc t0 + D = d := hdt0.symm
                _ ≤ tf := hdtf
                _ ≤ t' := htft
            exact absurd hlt (not_lt_of_le this)
        · exact ⟨tf, List.mem_append.mpr (Or.inl htf), hdtf⟩
    | fire tf =>
      have hct : changeTimes (evs ++ [DebEvent.fire tf])
          = changeTimes evs := by
        rw [changeTimes_append]
        simp [changeTimes]
      constructor
      · intro tm htm
        simp only [debStep] at htm
        have htm' : tm ∈ (debRun D g evs).timers := List.mem_of_mem_filter htm
        obtain ⟨t0, ht0, hd, hall⟩ := ihT tm htm'
        rw [hct]
        exact ⟨t0, ht0, hd, hall⟩
      · intro d hd
        simp only [debStep] at hd
        rcases List.mem_append.mp hd with hold | hnew
        · obtain ⟨⟨t0, ht0, hdt0, hq⟩, ⟨tf', htf', hdtf'⟩⟩ := ihS d hold
          refine ⟨⟨t0, by rw [hct]; exact ht0, hdt0, ?_⟩,
            ⟨tf', List.mem_append.mpr (Or.inl htf'), hdtf'⟩⟩
          intro t' ht'
          rw [hct] at ht'
          exact hq t' ht'
        · obtain ⟨tm, htm, htmd⟩ := List.mem_map.mp hnew
          have htmf := List.mem_filter.mp htm
          obtain ⟨t0, ht0, hdl, hall⟩ := ihT tm htmf.1
          have hdle : tm.2 ≤ tf := by simpa using htmf.2
          refine ⟨⟨t0, by rw [hct]; exact ht0, by rw [← htmd]; exact hdl,
            ?_⟩, ⟨tf, List.mem_append.mpr (Or.inr (by simp)), by
              rw [← htmd]; exact hdle⟩⟩
          intro t' ht'
          rw [hct] at ht'
          rintro ⟨hlt, -⟩
          exact absurd hlt (not_lt_of_le (hall t' ht'))

/-- C6 counterexample: the claim fails in both directions.  First,
canvas writes are not debounced at all: `addNode` (like `updateNode` and
`onConnect`) calls `saveCanvasState` synchronously inside its state
updater, so the canvas blob is in localStorage immediately after the
change, with no delay — here, adding one node to the mock state writes
the project key at once.  Second, in the page component's machine
(delay 2000 ms, empty-canvas guard) a change that leaves nodes and
edges empty cancels the pending save and schedules nothing — afterwards
no timer is pending and no effect-scheduled save ever fires — so not
every change schedules a save.  The space-builder machine (1000 ms, no
guard) does schedule one for the same timeline. -/
theorem C6_counterexample :
    Store.getItem (applyOpStore "default" "T"
        (mockCanvasState, Store.empty)
        (CanvasOp.addNode "desk" NodeKind.asset ⟨0, 0⟩ 5)).2
      (projectKey "default")
      = some (JSONstringify (encodeCanvas
          (applyOp mockCanvasState
            (CanvasOp.addNode "desk" NodeKind.asset ⟨0, 0⟩ 5)))) ∧
    (debRun 2000 true [DebEvent.change 0 false,
      DebEvent.change 1 true]).timers = [] ∧
    (debRun 2000 true [DebEvent.change 0 false, DebEvent.change 1 true,
      DebEvent.fire 999999]).saves = [] ∧
    (debRun 1000 false [DebEvent.change 0 false,
      DebEvent.change 1 true]).timers = [(1, 1001)] := by
  refine ⟨?_, by decide, by decide, by decide⟩
  exact saveCanvasState_writes_blob Store.empty "default"
    (applyOp mockCanvasState
      (CanvasOp.addNode "desk" NodeKind.asset ⟨0, 0⟩ 5)) none "T"

/-- C6 (amended): canvas localStorage writes are not limited to
debounced saves — `addNode`, `updateNode` (hence `handleGroupChange`)
and `onConnect` each write the updated canvas state synchronously on
every change.  In addition, the `[nodes, edges]` effect schedules a
debounced save: at most one such timer is pending at any time; every
change cancels the pending timer and schedules exactly one new save for
its time plus the delay (1000 ms in the space-builder component,
2000 ms in the page component), except that in the page component a
change leaving nodes and edges both empty (the first-render guard)
schedules none; and on an ordered timeline an effect-scheduled save
only fires for a change whose full debounce window passed with no
further change, at a fire no earlier than the deadline. -/
theorem C6_amended_sync_writes_and_debounce :
    (∀ (pid now : String) (sc : CanvasState × Store) (op : CanvasOp),
      (applyOpStore pid now sc op).1 = applyOp sc.1 op ∧
      Store.getItem (applyOpStore pid now sc op).2 (projectKey pid)
        = some (JSONstringify (encodeCanvas (applyOp sc.1 op)))) ∧
    (∀ (delay : Nat) (skipEmpty : Bool) (evs : List DebEvent),
      (debRun delay skipEmpty evs).timers.length ≤ 1 ∧
      (∀ (t : Nat) (ec : Bool),
        (debRun delay skipEmpty (evs ++ [DebEvent.change t ec])).timers
          = if skipEmpty && ec then []
            else [((debRun delay skipEmpty evs).nextId, t + delay)]) ∧
      (Ordered evs →
        ∀ d ∈ (debRun delay skipEmpty evs).saves,
          ∃ t, t ∈ changeTimes evs ∧ d = t + delay ∧
            Quiet evs t delay)) := by
  constructor
  · intro pid now sc op
    exact ⟨rfl, saveCanvasState_writes_blob sc.2 pid (applyOp sc.1 op)
      none now⟩
  · intro D g evs
    refine ⟨?_, ?_, ?_⟩
    · rcases debRun_inv D g evs with h | ⟨i, d, hts, -⟩
      · simp [h]
      · simp [hts]
    · intro t ec
      rw [debRun_append_single,
        debStep_change_timers D g _ (debRun_inv D g evs) t ec]
    · intro hord d hd
      exact ((debRun_saves_sound D g evs hord).2 d hd).1

/-- C6 witness: adding a node to the mock state over the empty store
writes the canvas blob synchronously; on the page machine, a change at
100 ms followed by a fresh change at 200 ms leaves exactly the
rescheduled timer; and the effect save that fires at 2100 ms belongs to
the change at 100 ms with a quiet 2000 ms window. -/
theorem C6_witness :
    Store.getItem (applyOpStore "default" "T"
        (mockCanvasState, Store.empty)
        (CanvasOp.addNode "desk" NodeKind.asset ⟨0, 0⟩ 7)).2
      (projectKey "default")
      = some (JSONstringify (encodeCanvas
          (applyOp mockCanvasState
            (CanvasOp.addNode "desk" NodeKind.asset ⟨0, 0⟩ 7)))) ∧
    (debRun 2000 true [DebEvent.change 100 false,
      DebEvent.fire 2100]).timers.length ≤ 1 ∧
    (debRun 2000 true ([DebEvent.change 100 false] ++
      [DebEvent.change 200 false])).timers = [(1, 2200)] ∧
    (∃ t, t ∈ changeTimes [DebEvent.change 100 false,
        DebEvent.fire 2100] ∧ 2100 = t + 2000 ∧
      Quiet [DebEvent.change 100 false, DebEvent.fire 2100] t 2000) := by
  refine ⟨(C6_amended_sync_writes_and_debounce.1 "default" "T"
      (mockCanvasState, Store.empty)
      (CanvasOp.addNode "desk" NodeKind.asset ⟨0, 0⟩ 7)).2,
    (C6_amended_sync_writes_and_debounce.2 2000 true
      [DebEvent.change 100 false, DebEvent.fire 2100]).1, ?_, ?_⟩
  · rw [(C6_amended_sync_writes_and_debounce.2 2000 true
      [DebEvent.change 100 false]).2.1 200 false]
    decide
  · exact (C6_amended_sync_writes_and_debounce.2 2000 true
      [DebEvent.change 100 false, DebEvent.fire 2100]).2.2
      (by simp [Ordered, DebEvent.time, List.chain'_cons]) 2100 (by decide)
